import Mathlib

/-!
Verification of the field-extraction and resolution engine of the pdfhunter
repository (packages `pdfhunter` and `pdfresolve` under `src/`).

The development shallowly embeds, in order:
  * a small backtracking regular-expression engine with the leftmost-first
    semantics of Python's `re` module, over which the pattern catalog of
    `pdfresolve/parsing/patterns.py` is transliterated pattern by pattern
    (the `pdfhunter` package imports its pattern module from the same
    catalog; the file `pdfhunter/parsing/patterns.py` itself is not in the
    tree, `pdfresolve/parsing/patterns.py` is);
  * the rule-based extractor of `pdfhunter/parsing/rule_based.py`;
  * the evidence model and merger of `pdfhunter/models/evidence.py` and
    `pdfhunter/core/merger.py`;
  * the bibliography record with its simple fixed-weight confidence
    calculation (`pdfhunter/models/bibliography.py`);
  * the category-weighted confidence scorer
    (`pdfhunter/validation/scorer.py`);
  * the expansion agent (`pdfhunter/enrichment/expansion.py`) and the
    relevant part of the pipeline (`pdfhunter/core/pipeline.py`).

Python floats are modelled as rationals (every constant in the scored
formulas is an exact decimal, and `round(x, 2)` is modelled as
round-half-even at two decimals, the tie-breaking rule Python's `round`
uses on exactly representable values).  Because the `Rat` arithmetic of
this toolchain does not reduce inside the kernel, the embedding computes
with explicit `mkRat`-based operations `qadd`, `qsub`, `qmul`, `qdiv`,
`qmin`, `qmax`, which do reduce; they agree with the field operations of
`ℚ`.
-/

/-! ## Exact rational arithmetic that reduces in the kernel -/

/-- Addition on `ℚ` via `mkRat`; agrees with `+` (see `qadd_eq`). -/
def qadd (a b : ℚ) : ℚ := mkRat (a.num * b.den + b.num * a.den) (a.den * b.den)

/-- Subtraction on `ℚ` via `mkRat`; agrees with `-` (see `qsub_eq`). -/
def qsub (a b : ℚ) : ℚ := mkRat (a.num * b.den - b.num * a.den) (a.den * b.den)

/-- Multiplication on `ℚ` via `mkRat`; agrees with `*` (see `qmul_eq`). -/
def qmul (a b : ℚ) : ℚ := mkRat (a.num * b.num) (a.den * b.den)

/-- Division on `ℚ` via `mkRat`; agrees with `/` (see `qdiv_eq`). -/
def qdiv (a b : ℚ) : ℚ := mkRat (a.num * b.den * b.num.sign) (a.den * b.num.natAbs)

/-- Minimum of two rationals, by the decidable order on `ℚ`. -/
def qmin (a b : ℚ) : ℚ := if a ≤ b then a else b

/-- Maximum of two rationals, by the decidable order on `ℚ`. -/
def qmax (a b : ℚ) : ℚ := if a ≤ b then b else a

theorem qadd_eq (a b : ℚ) : qadd a b = a + b := by
  have ha : (a.den : ℚ) ≠ 0 := by exact_mod_cast a.den_nz
  have hb : (b.den : ℚ) ≠ 0 := by exact_mod_cast b.den_nz
  rw [qadd, Rat.mkRat_eq_div]
  push_cast
  conv_rhs => rw [← Rat.num_div_den a, ← Rat.num_div_den b]
  field_simp

theorem qsub_eq (a b : ℚ) : qsub a b = a - b := by
  have ha : (a.den : ℚ) ≠ 0 := by exact_mod_cast a.den_nz
  have hb : (b.den : ℚ) ≠ 0 := by exact_mod_cast b.den_nz
  rw [qsub, Rat.mkRat_eq_div]
  push_cast
  conv_rhs => rw [← Rat.num_div_den a, ← Rat.num_div_den b]
  field_simp
  ring

theorem qmul_eq (a b : ℚ) : qmul a b = a * b := by
  have ha : (a.den : ℚ) ≠ 0 := by exact_mod_cast a.den_nz
  have hb : (b.den : ℚ) ≠ 0 := by exact_mod_cast b.den_nz
  rw [qmul, Rat.mkRat_eq_div]
  push_cast
  conv_rhs => rw [← Rat.num_div_den a, ← Rat.num_div_den b]
  field_simp

theorem qdiv_eq (a b : ℚ) : qdiv a b = a / b := by
  rcases eq_or_ne b 0 with rfl | hb
  · simp [qdiv]
  · have hbnum : b.num ≠ 0 := Rat.num_ne_zero.mpr hb
    have ha : (a.den : ℚ) ≠ 0 := by exact_mod_cast a.den_nz
    have hbd : (b.den : ℚ) ≠ 0 := by exact_mod_cast b.den_nz
    have hbq : (b.num : ℚ) ≠ 0 := by exact_mod_cast hbnum
    rw [qdiv, Rat.mkRat_eq_div]
    push_cast
    conv_rhs => rw [← Rat.num_div_den a, ← Rat.num_div_den b]
    rw [div_div_div_comm]
    have habs : ((b.num.natAbs : ℚ)) = |(b.num : ℚ)| := by
      rw [Int.cast_natAbs, Int.cast_abs]
    have hsign : ((b.num.sign : ℚ)) * (b.num.natAbs : ℚ) = (b.num : ℚ) := by
      rcases lt_trichotomy b.num 0 with h | h | h
      · have hq : ((b.num : ℚ)) < 0 := by exact_mod_cast h
        rw [Int.sign_eq_neg_one_iff_neg.mpr h, habs, abs_of_neg hq]
        push_cast
        ring
      · exact absurd h hbnum
      · have hq : (0 : ℚ) < ((b.num : ℚ)) := by exact_mod_cast h
        rw [Int.sign_eq_one_iff_pos.mpr h, habs, abs_of_pos hq]
        push_cast
        ring
    have hne : ((b.num.natAbs : ℚ)) ≠ 0 := by
      simp [Int.natAbs_ne_zero, hbnum]
    have hs2 : ((b.num.sign : ℚ)) * ((b.num.sign : ℚ)) = 1 := by
      rcases lt_trichotomy b.num 0 with h | h | h
      · rw [Int.sign_eq_neg_one_iff_neg.mpr h]; norm_num
      · exact absurd h hbnum
      · rw [Int.sign_eq_one_iff_pos.mpr h]; norm_num
    field_simp
    rw [mul_comm ((b.num : ℚ)) _, ← hsign]
    linear_combination (((a.num : ℚ)) * b.den * a.den * b.num.natAbs) * hs2

theorem qmin_eq (a b : ℚ) : qmin a b = min a b := by
  rw [qmin, min_def]

theorem qmax_eq (a b : ℚ) : qmax a b = max a b := by
  rw [qmax, max_def]

/-- Round-half-even of a rational to an integer (the tie rule of Python's
`round`). -/
def roundHalfEven (x : ℚ) : ℤ :=
  let f : ℤ := Int.fdiv x.num x.den
  let t : ℤ := 2 * (x.num - f * x.den)
  if t < (x.den : ℤ) then f
  else if (x.den : ℤ) < t then f + 1
  else if f % 2 = 0 then f else f + 1

/-- Python's `round(x, 2)` on the exact value: round-half-even at two
decimal places. -/
def roundTo2 (x : ℚ) : ℚ := mkRat (roundHalfEven (qmul x (mkRat 100 1))) 100

/-! ## A backtracking regular-expression engine

All patterns in the catalog are compiled by `compile_patterns` with
`re.IGNORECASE | re.UNICODE`; the engine therefore always matches
literals and character classes case-insensitively.  Case folding and the
word/digit/space character predicates are restricted to the alphabets
actually used by the catalog and the texts it is applied to (ASCII,
Latin-1 letters, Cyrillic); this mirrors Python's Unicode behaviour on
those alphabets. -/

/-- Lower-case folding over ASCII, Latin-1 and Cyrillic letters. -/
def foldLower (c : Char) : Char :=
  if 'A' ≤ c ∧ c ≤ 'Z' then Char.ofNat (c.toNat + 32)
  else if 'À' ≤ c ∧ c ≤ 'Þ' ∧ c ≠ '×' then Char.ofNat (c.toNat + 32)
  else if 'А' ≤ c ∧ c ≤ 'Я' then Char.ofNat (c.toNat + 32)
  else if c = 'Ё' then 'ё'
  else c

/-- Upper-case folding over ASCII, Latin-1 and Cyrillic letters. -/
def foldUpper (c : Char) : Char :=
  if 'a' ≤ c ∧ c ≤ 'z' then Char.ofNat (c.toNat - 32)
  else if 'à' ≤ c ∧ c ≤ 'þ' ∧ c ≠ '÷' then Char.ofNat (c.toNat - 32)
  else if 'а' ≤ c ∧ c ≤ 'я' then Char.ofNat (c.toNat - 32)
  else if c = 'ё' then 'Ё'
  else c

/-- The `\d` predicate (decimal digit). -/
def isDigitChar (c : Char) : Bool := '0' ≤ c ∧ c ≤ '9'

/-- The `\s` predicate (whitespace). -/
def isSpaceChar (c : Char) : Bool :=
  c = ' ' ∨ c = '\t' ∨ c = '\n' ∨ c = '\x0d' ∨ c = '\x0b' ∨ c = '\x0c'

/-- The `\w` predicate (word character), over the alphabets of the
catalog: ASCII alphanumerics and underscore, Latin-1 letters, Cyrillic. -/
def isWordChar (c : Char) : Bool :=
  ('0' ≤ c ∧ c ≤ '9') ∨ ('a' ≤ c ∧ c ≤ 'z') ∨ ('A' ≤ c ∧ c ≤ 'Z') ∨ c = '_' ∨
  ('À' ≤ c ∧ c ≤ 'ÿ' ∧ c ≠ '×' ∧ c ≠ '÷') ∨
  ('Ѐ' ≤ c ∧ c ≤ 'ӿ')

/-- Items of a regex character class. -/
inductive ClsItem where
  | ch (c : Char)
  | range (lo hi : Char)
  | digit
  | space
deriving DecidableEq

/-- A regex character class `[...]` (`neg` for `[^...]`). -/
structure Cls where
  neg : Bool
  items : List ClsItem
deriving DecidableEq

/-- Whether character `c` itself satisfies one class item (no folding). -/
def clsItemHas (it : ClsItem) (c : Char) : Bool :=
  match it with
  | .ch d => c = d
  | .range lo hi => lo ≤ c ∧ c ≤ hi
  | .digit => isDigitChar c
  | .space => isSpaceChar c

/-- Case-insensitive class membership: the character, its lower-case or
its upper-case form is listed (Python expands classes by case folding
under `re.IGNORECASE`). -/
def clsHas (cc : Cls) (c : Char) : Bool :=
  let hit := cc.items.any fun it =>
    clsItemHas it c || clsItemHas it (foldLower c) || clsItemHas it (foldUpper c)
  if cc.neg then !hit else hit

/-- Regular expressions, covering the constructs used by the pattern
catalog.  Quantifiers `+` and `{m,n}` are desugared by the combinators
below.  All matching is case-insensitive (`re.IGNORECASE`). -/
inductive RE where
  | eps
  | lit (c : Char)
  | cls (cc : Cls)
  | dot
  | seq (a b : RE)
  | alt (a b : RE)
  | opt (a : RE)
  | starG (a : RE)
  | starL (a : RE)
  | group (i : Nat) (a : RE)
  | wb
  | nla (a : RE)
deriving DecidableEq

/-- Sequence a list of regexes. -/
def reCat (l : List RE) : RE := l.foldr RE.seq RE.eps

/-- Exactly `n` copies (for `{n}`). -/
def reRep (a : RE) : Nat → RE
  | 0 => RE.eps
  | n + 1 => RE.seq a (reRep a n)

/-- Up to `n` further copies, greedily preferring more (for the upper
part of `{m,n}`). -/
def reUpTo (a : RE) : Nat → RE
  | 0 => RE.eps
  | n + 1 => RE.opt (RE.seq a (reUpTo a n))

/-- Greedy `{m,n}`. -/
def reRange (a : RE) (m n : Nat) : RE := RE.seq (reRep a m) (reUpTo a (n - m))

/-- Greedy `+`. -/
def rePlus (a : RE) : RE := RE.seq a (RE.starG a)

/-- Word boundary test at position `i` of `t`. -/
def wordBoundaryAt (t : List Char) (i : Nat) : Bool :=
  let before : Bool := if i = 0 then false else
    match t.get? (i - 1) with
    | some c => isWordChar c
    | none => false
  let after : Bool :=
    match t.get? i with
    | some c => isWordChar c
    | none => false
  before ≠ after

/-- Group captures: an association of group index to the `(start, stop)`
span; the most recent capture of a group is listed first. -/
abbrev Caps := List (Nat × Nat × Nat)

/-- Backtracking matcher in continuation-passing style.  Alternatives are
tried left first, greedy quantifiers longest first and lazy quantifiers
shortest first — Python's backtracking order, so the first success found
is the match Python reports.  The recursion is structural on `fuel`
(decremented at every step so that it reduces inside the kernel);
`matchAt` supplies more fuel than the recursion depth of any match
attempt can reach, so the out-of-fuel branch is never taken: every
recursive call either peels one constructor off the pattern or restarts
a star with the position strictly advanced (the `i < j` guard, which is
also Python's guard against empty star iterations). -/
def reMatch (t : List Char) : Nat → RE → Nat → Caps →
    (Nat → Caps → Option (Nat × Caps)) → Option (Nat × Caps)
  | 0, _, _, _, _ => none
  | fuel + 1, re, i, caps, k =>
    match re with
    | .eps => k i caps
    | .lit c =>
      match t.get? i with
      | some d => if foldLower d = foldLower c then k (i + 1) caps else none
      | none => none
    | .cls cc =>
      match t.get? i with
      | some d => if clsHas cc d then k (i + 1) caps else none
      | none => none
    | .dot =>
      match t.get? i with
      | some d => if d = '\n' then none else k (i + 1) caps
      | none => none
    | .seq a b =>
      reMatch t fuel a i caps fun j caps1 => reMatch t fuel b j caps1 k
    | .alt a b =>
      match reMatch t fuel a i caps k with
      | some r => some r
      | none => reMatch t fuel b i caps k
    | .opt a =>
      match reMatch t fuel a i caps k with
      | some r => some r
      | none => k i caps
    | .starG a =>
      match reMatch t fuel a i caps (fun j caps1 =>
          if i < j then reMatch t fuel (.starG a) j caps1 k else none) with
      | some r => some r
      | none => k i caps
    | .starL a =>
      match k i caps with
      | some r => some r
      | none =>
        reMatch t fuel a i caps fun j caps1 =>
          if i < j then reMatch t fuel (.starL a) j caps1 k else none
    | .group gi a =>
      reMatch t fuel a i caps fun j caps1 => k j ((gi, i, j) :: caps1)
    | .wb => if wordBoundaryAt t i then k i caps else none
    | .nla a =>
      match reMatch t fuel a i caps (fun j caps1 => some (j, caps1)) with
      | some _ => none
      | none => k i caps

/-- One raw match: absolute start and stop offsets plus group captures. -/
structure RawMatch where
  start : Nat
  stop : Nat
  caps : Caps
deriving DecidableEq

/-- Structural size of a pattern, used to compute a sufficient fuel. -/
def sizeRE : RE → Nat
  | .eps | .lit _ | .cls _ | .dot | .wb => 1
  | .seq a b | .alt a b => sizeRE a + sizeRE b + 1
  | .opt a | .starG a | .starL a | .group _ a | .nla a => sizeRE a + 1

/-- Try to match `re` anchored at position `i`.  The fuel
`(sizeRE re + 1) * (t.length + 2)` exceeds the depth of any match
attempt: along one path of the search at most `sizeRE re` frames are
open per consumed character, and at most `t.length` characters can be
consumed. -/
def matchAt (t : List Char) (re : RE) (i : Nat) : Option (Nat × Caps) :=
  reMatch t ((sizeRE re + 1) * (t.length + 2)) re i [] fun j caps => some (j, caps)

/-- Scan helper for `finditer`: try each position left to right, resume
after the previous match (Python advances by one on a zero-width match). -/
def finditerAux (t : List Char) (re : RE) : Nat → Nat → List RawMatch
  | 0, _ => []
  | fuel + 1, i =>
    if i > t.length then []
    else
      match matchAt t re i with
      | some (j, caps) =>
        ⟨i, j, caps⟩ :: finditerAux t re fuel (if i < j then j else i + 1)
      | none => finditerAux t re fuel (i + 1)

/-- All non-overlapping matches, leftmost first, as `re.finditer`. -/
def finditer (t : List Char) (re : RE) : List RawMatch :=
  finditerAux t re (t.length + 2) 0

/-- The text of span `[s, e)` of `t`. -/
def sliceStr (t : List Char) (s e : Nat) : String :=
  String.mk ((t.drop s).take (e - s))

/-- Python `match.group(0)`: the whole matched substring. -/
def RawMatch.group0 (t : List Char) (m : RawMatch) : String :=
  sliceStr t m.start m.stop

/-- Python `match.group(i)` for `i ≥ 1`: `none` when the group did not
participate in the match. -/
def RawMatch.group (t : List Char) (m : RawMatch) (gi : Nat) : Option String :=
  (m.caps.find? fun p => p.1 = gi).map fun p => sliceStr t p.2.1 p.2.2

/-! ## String and number helpers used by `patterns.py` -/

/-- Substring test (`needle in hay` on Python strings). -/
def containsSub : List Char → List Char → Bool
  | hay, needle =>
    if needle.isPrefixOf hay then true
    else
      match hay with
      | [] => false
      | _ :: rest => containsSub rest needle

/-- Decimal digits of a natural number (`fuel`-bounded auxiliary). -/
def natToStrAux : Nat → Nat → List Char
  | 0, _ => []
  | fuel + 1, n =>
    if n < 10 then [Char.ofNat (48 + n)]
    else natToStrAux fuel (n / 10) ++ [Char.ofNat (48 + n % 10)]

/-- Python `str` of a natural number. -/
def natToStr (n : Nat) : String := String.mk (natToStrAux (n + 1) n)

/-- Python `str` of an integer. -/
def strOfInt (i : ℤ) : String :=
  if i < 0 then "-" ++ natToStr (-i).toNat else natToStr i.toNat

/-- Python `int(s)` on the digit strings produced by `\d+` captures
(`none` models the `ValueError` raised on anything else; the broader
forms `int` accepts — signs, surrounding blanks — never reach it here). -/
def strToNatDigits (s : String) : Option Nat :=
  if s.data ≠ [] ∧ s.data.all isDigitChar then
    some (s.data.foldl (fun a c => a * 10 + (c.toNat - 48)) 0)
  else none

/-- Value of one Roman-numeral letter (`values.get(char, 0)`). -/
def romanVal (c : Char) : ℤ :=
  if c = 'I' then 1 else if c = 'V' then 5 else if c = 'X' then 10
  else if c = 'L' then 50 else if c = 'C' then 100 else if c = 'D' then 500
  else if c = 'M' then 1000 else 0

/-- Transliterates `roman_to_int` of `patterns.py`: upper-case, then fold
over the reversed string subtracting a value smaller than its right
neighbour. -/
def roman_to_int (roman : String) : ℤ :=
  let folded := (roman.data.map foldUpper).reverse.foldl
    (fun (p : ℤ × ℤ) c =>
      let curr := romanVal c
      (if curr < p.2 then p.1 - curr else p.1 + curr, curr))
    (0, 0)
  folded.1

/-- Transliterates `normalize_page_range` of `patterns.py`. -/
def normalize_page_range (start stop : String) : String := start ++ "-" ++ stop

/-- Transliterates `is_valid_year` of `patterns.py`. -/
def is_valid_year (year : ℤ) : Bool := 1500 ≤ year ∧ year ≤ 2030

/-! ## The pattern catalog of `patterns.py`

Each definition transliterates one regular expression of the catalog;
the original pattern is quoted in the doc comment.  All are compiled
with `re.IGNORECASE | re.UNICODE` (handled inside the engine). -/

/-- Class `\d`. -/
def dgt : RE := .cls ⟨false, [.digit]⟩

/-- Class `\s`. -/
def spc : RE := .cls ⟨false, [.space]⟩

/-- A class listing single characters. -/
def chCls (l : List Char) : RE := .cls ⟨false, l.map ClsItem.ch⟩

/-- Class `[IVXLCDM]`. -/
def romanCls : RE := chCls ['I', 'V', 'X', 'L', 'C', 'D', 'M']

/-- Class `[-–—]` (hyphen, en dash, em dash). -/
def dashCls : RE := chCls ['-', '–', '—']

/-- A sequence of literal characters. -/
def litStr (s : String) : RE := reCat (s.data.map RE.lit)

/-- Left-biased alternation of a list (the regex `a|b|c`). -/
def reAltList : List RE → RE
  | [] => .eps
  | [a] => a
  | a :: rest => .alt a (reAltList rest)

/-- The year alternative `19[0-9]{2}|20[0-2][0-9]`. -/
def yearCore : RE :=
  .alt (reCat [.lit '1', .lit '9', dgt, dgt])
    (reCat [.lit '2', .lit '0', .cls ⟨false, [.range '0' '2']⟩, dgt])

/-- Pattern `\b(19[0-9]{2}|20[0-2][0-9])\b` (`year_standard`). -/
def reYearStandard : RE := reCat [.wb, .group 1 yearCore, .wb]

/-- Pattern `\((\d{4})\)` (`year_parentheses`). -/
def reYearParenth : RE :=
  reCat [.lit '(', .group 1 (reRep dgt 4), .lit ')']

/-- Pattern `[©℗]\s*(19[0-9]{2}|20[0-2][0-9])` (`year_copyright`). -/
def reYearCopyright : RE :=
  reCat [chCls ['©', '℗'], .starG spc, .group 1 yearCore]

/-- Pattern `\b(19[0-9]{2}|20[0-2][0-9])[-–—](19[0-9]{2}|20[0-2][0-9])\b`
(`year_range`). -/
def reYearRange : RE :=
  reCat [.wb, .group 1 yearCore, dashCls, .group 2 yearCore, .wb]

/-- The list `YEAR_PATTERNS`. -/
def YEAR_PATTERNS : List (RE × String) :=
  [(reYearStandard, "year_standard"),
   (reYearParenth, "year_parentheses"),
   (reYearCopyright, "year_copyright"),
   (reYearRange, "year_range")]

/-- Pattern `\bp{1,2}\.\s*(\d+)\s*[-–—]\s*(\d+)\b` (`pages_p_range`). -/
def rePagesPRange : RE :=
  reCat [.wb, reRange (.lit 'p') 1 2, .lit '.', .starG spc,
    .group 1 (rePlus dgt), .starG spc, dashCls, .starG spc,
    .group 2 (rePlus dgt), .wb]

/-- Pattern `\bpages?\s+(\d+)\s*[-–—]\s*(\d+)\b` (`pages_word_range`). -/
def rePagesWordRange : RE :=
  reCat [.wb, litStr "page", .opt (.lit 's'), rePlus spc,
    .group 1 (rePlus dgt), .starG spc, dashCls, .starG spc,
    .group 2 (rePlus dgt), .wb]

/-- Pattern `\bS\.\s*(\d+)\s*[-–—]\s*(\d+)\b` (`pages_german`). -/
def rePagesGerman : RE :=
  reCat [.wb, .lit 'S', .lit '.', .starG spc, .group 1 (rePlus dgt),
    .starG spc, dashCls, .starG spc, .group 2 (rePlus dgt), .wb]

/-- Pattern `\bс\.\s*(\d+)\s*[-–—]\s*(\d+)\b` (`pages_russian`). -/
def rePagesRussian : RE :=
  reCat [.wb, .lit 'с', .lit '.', .starG spc, .group 1 (rePlus dgt),
    .starG spc, dashCls, .starG spc, .group 2 (rePlus dgt), .wb]

/-- Pattern `:\s*(\d+)\s*[-–—]\s*(\d+)\b` (`pages_colon`). -/
def rePagesColon : RE :=
  reCat [.lit ':', .starG spc, .group 1 (rePlus dgt), .starG spc, dashCls,
    .starG spc, .group 2 (rePlus dgt), .wb]

/-- Pattern `\bp\.\s*(\d+)\b(?!\s*[-–—])` (`page_single`). -/
def rePageSingle : RE :=
  reCat [.wb, .lit 'p', .lit '.', .starG spc, .group 1 (rePlus dgt), .wb,
    .nla (reCat [.starG spc, dashCls])]

/-- The list `PAGE_PATTERNS`. -/
def PAGE_PATTERNS : List (RE × String) :=
  [(rePagesPRange, "pages_p_range"),
   (rePagesWordRange, "pages_word_range"),
   (rePagesGerman, "pages_german"),
   (rePagesRussian, "pages_russian"),
   (rePagesColon, "pages_colon"),
   (rePageSingle, "page_single")]

/-- The volume value alternative `[IVXLCDM]+|\d+`. -/
def volumeValueAlt : RE := .alt (rePlus romanCls) (rePlus dgt)

/-- Pattern `\b[Vv]ol(?:ume)?\.?\s*([IVXLCDM]+|\d+)\b` (`volume_standard`). -/
def reVolumeStandard : RE :=
  reCat [.wb, chCls ['V', 'v'], .lit 'o', .lit 'l', .opt (litStr "ume"),
    .opt (.lit '.'), .starG spc, .group 1 volumeValueAlt, .wb]

/-- Pattern `\bv\.\s*(\d+)\b` (`volume_abbrev`). -/
def reVolumeAbbrev : RE :=
  reCat [.wb, .lit 'v', .lit '.', .starG spc, .group 1 (rePlus dgt), .wb]

/-- Pattern `\b[Tt](?:ome)?\.?\s*([IVXLCDM]+|\d+)\b` (`volume_french`). -/
def reVolumeFrench : RE :=
  reCat [.wb, chCls ['T', 't'], .opt (litStr "ome"), .opt (.lit '.'),
    .starG spc, .group 1 volumeValueAlt, .wb]

/-- Pattern `\b[Тт]ом\.?\s*(\d+|[IVXLCDM]+)\b` (`volume_russian`). -/
def reVolumeRussian : RE :=
  reCat [.wb, chCls ['Т', 'т'], litStr "ом", .opt (.lit '.'), .starG spc,
    .group 1 (.alt (rePlus dgt) (rePlus romanCls)), .wb]

/-- Pattern `\bBd\.?\s*(\d+)\b` (`volume_german`). -/
def reVolumeGerman : RE :=
  reCat [.wb, .lit 'B', .lit 'd', .opt (.lit '.'), .starG spc,
    .group 1 (rePlus dgt), .wb]

/-- Pattern `\(([IVXLCDM]+)\)` (`volume_roman_paren`). -/
def reVolumeRomanParen : RE :=
  reCat [.lit '(', .group 1 (rePlus romanCls), .lit ')']

/-- Pattern `,\s*([IVXLCDM]+)\s*,` (`volume_roman_comma`). -/
def reVolumeRomanComma : RE :=
  reCat [.lit ',', .starG spc, .group 1 (rePlus romanCls), .starG spc,
    .lit ',']

/-- The list `VOLUME_PATTERNS`. -/
def VOLUME_PATTERNS : List (RE × String) :=
  [(reVolumeStandard, "volume_standard"),
   (reVolumeAbbrev, "volume_abbrev"),
   (reVolumeFrench, "volume_french"),
   (reVolumeRussian, "volume_russian"),
   (reVolumeGerman, "volume_german"),
   (reVolumeRomanParen, "volume_roman_paren"),
   (reVolumeRomanComma, "volume_roman_comma")]

/-- Pattern `\b[Nn]o\.?\s*(\d+)\b` (`issue_standard`). -/
def reIssueStandard : RE :=
  reCat [.wb, chCls ['N', 'n'], .lit 'o', .opt (.lit '.'), .starG spc,
    .group 1 (rePlus dgt), .wb]

/-- Pattern `[n№]°?\s*(\d+)\b` (`issue_numero`). -/
def reIssueNumero : RE :=
  reCat [chCls ['n', '№'], .opt (.lit '°'), .starG spc,
    .group 1 (rePlus dgt), .wb]

/-- Pattern `\b[Ii]ssue\s+(\d+)\b` (`issue_word`). -/
def reIssueWord : RE :=
  reCat [.wb, chCls ['I', 'i'], litStr "ssue", rePlus spc,
    .group 1 (rePlus dgt), .wb]

/-- Pattern `\bHeft\.?\s*(\d+)\b` (`issue_german`). -/
def reIssueGerman : RE :=
  reCat [.wb, litStr "Heft", .opt (.lit '.'), .starG spc,
    .group 1 (rePlus dgt), .wb]

/-- Pattern `\b[Вв]ыпуск\.?\s*(\d+)\b` (`issue_russian`). -/
def reIssueRussian : RE :=
  reCat [.wb, chCls ['В', 'в'], litStr "ыпуск", .opt (.lit '.'), .starG spc,
    .group 1 (rePlus dgt), .wb]

/-- Pattern `\b[Ff]asc(?:icule)?\.?\s*(\d+)\b` (`issue_fascicle`). -/
def reIssueFascicle : RE :=
  reCat [.wb, chCls ['F', 'f'], litStr "asc", .opt (litStr "icule"),
    .opt (.lit '.'), .starG spc, .group 1 (rePlus dgt), .wb]

/-- Pattern `\b\d+\s*\((\d+)\)` (`issue_in_paren`). -/
def reIssueInParen : RE :=
  reCat [.wb, rePlus dgt, .starG spc, .lit '(', .group 1 (rePlus dgt),
    .lit ')']

/-- The list `ISSUE_PATTERNS`. -/
def ISSUE_PATTERNS : List (RE × String) :=
  [(reIssueStandard, "issue_standard"),
   (reIssueNumero, "issue_numero"),
   (reIssueWord, "issue_word"),
   (reIssueGerman, "issue_german"),
   (reIssueRussian, "issue_russian"),
   (reIssueFascicle, "issue_fascicle"),
   (reIssueInParen, "issue_in_paren")]

/-- Pattern `\bBulletin\s+[Nn]o\.?\s*(\d+)\b` (`series_bulletin`). -/
def reSeriesBulletin : RE :=
  reCat [.wb, litStr "Bulletin", rePlus spc, chCls ['N', 'n'], .lit 'o',
    .opt (.lit '.'), .starG spc, .group 1 (rePlus dgt), .wb]

/-- Pattern `\bMemoirs?\s+(\d+)\b` (`series_memoir`). -/
def reSeriesMemoir : RE :=
  reCat [.wb, litStr "Memoir", .opt (.lit 's'), rePlus spc,
    .group 1 (rePlus dgt), .wb]

/-- Pattern `\b[Тт]руды\b.*?(\d+)` (`series_trudy`). -/
def reSeriesTrudy : RE :=
  reCat [.wb, chCls ['Т', 'т'], litStr "руды", .wb, .starL .dot,
    .group 1 (rePlus dgt)]

/-- Pattern `\b[Ии]звестия\b` (`series_izvestiya`). -/
def reSeriesIzvestiya : RE :=
  reCat [.wb, chCls ['И', 'и'], litStr "звестия", .wb]

/-- Pattern `\b[Зз]аписки\b` (`series_zapiski`). -/
def reSeriesZapiski : RE :=
  reCat [.wb, chCls ['З', 'з'], litStr "аписки", .wb]

/-- Pattern `\b[Ss]er(?:ies)?\.?\s*([A-Z]|\d+)\b` (`series_standard`). -/
def reSeriesStandard : RE :=
  reCat [.wb, chCls ['S', 's'], litStr "er", .opt (litStr "ies"),
    .opt (.lit '.'), .starG spc,
    .group 1 (.alt (.cls ⟨false, [.range 'A' 'Z']⟩) (rePlus dgt)), .wb]

/-- Pattern `\bn\.?\s*s\.?\b` (`series_new`). -/
def reSeriesNew : RE :=
  reCat [.wb, .lit 'n', .opt (.lit '.'), .starG spc, .lit 's',
    .opt (.lit '.'), .wb]

/-- The list `SERIES_PATTERNS`. -/
def SERIES_PATTERNS : List (RE × String) :=
  [(reSeriesBulletin, "series_bulletin"),
   (reSeriesMemoir, "series_memoir"),
   (reSeriesTrudy, "series_trudy"),
   (reSeriesIzvestiya, "series_izvestiya"),
   (reSeriesZapiski, "series_zapiski"),
   (reSeriesStandard, "series_standard"),
   (reSeriesNew, "series_new")]

/-- A city-name alternation wrapped as `\b( ... )\b`. -/
def cityAlt (names : List String) : RE :=
  reCat [.wb, .group 1 (reAltList (names.map litStr)), .wb]

/-- Class `\w`. -/
def wordCls : RE :=
  .cls ⟨false, [.range '0' '9', .range 'a' 'z', .range 'A' 'Z', .ch '_',
    .range 'À' 'ÿ', .range 'Ѐ' 'ӿ']⟩

/-- Pattern `\b(Ленинград\w*|Leningrad|Санкт-Петербург\w*|St\.?\s*Petersburg)\b`
(`place_russia`). -/
def rePlaceRussia : RE :=
  reCat [.wb, .group 1 (reAltList
    [reCat [litStr "Ленинград", .starG wordCls],
     litStr "Leningrad",
     reCat [litStr "Санкт-Петербург", .starG wordCls],
     reCat [litStr "St", .opt (.lit '.'), .starG spc, litStr "Petersburg"]]),
    .wb]

/-- Class `[a-zа-яé]`. -/
def lowerNameCls : RE :=
  .cls ⟨false, [.range 'a' 'z', .range 'а' 'я', .ch 'é']⟩

/-- Pattern `([A-Z][a-zа-яé]+(?:\s+[A-Z][a-zа-яé]+)?)\s*:`
(`place_before_colon`). -/
def rePlaceBeforeColon : RE :=
  reCat [.group 1 (reCat
    [.cls ⟨false, [.range 'A' 'Z']⟩, rePlus lowerNameCls,
     .opt (reCat [rePlus spc, .cls ⟨false, [.range 'A' 'Z']⟩,
       rePlus lowerNameCls])]),
    .starG spc, .lit ':']

/-- The list `PLACE_PATTERNS`. -/
def PLACE_PATTERNS : List (RE × String) :=
  [(cityAlt ["Paris", "London", "New York", "Berlin", "Vienna", "Wien",
      "Moscow", "Москва"], "place_major"),
   (cityAlt ["Leipzig", "Munich", "München", "Oxford", "Cambridge",
      "Chicago", "Tokyo"], "place_major2"),
   (cityAlt ["Amsterdam", "Rotterdam", "Leiden", "The Hague", "Den Haag"],
      "place_dutch"),
   (cityAlt ["Madrid", "Barcelona", "Rome", "Roma", "Milan", "Milano",
      "Firenze", "Florence"], "place_southern"),
   (rePlaceRussia, "place_russia"),
   (cityAlt ["Киев", "Kiev", "Kyiv", "Минск", "Minsk"], "place_eastern"),
   (cityAlt ["Stockholm", "Copenhagen", "København", "Oslo", "Helsinki"],
      "place_nordic"),
   (cityAlt ["Washington", "Philadelphia", "Boston", "Norman", "Lawrence"],
      "place_us"),
   (cityAlt ["Toronto", "Montreal", "Montréal", "Vancouver", "Ottawa"],
      "place_canada"),
   (cityAlt ["Sydney", "Melbourne", "Canberra", "Brisbane"],
      "place_australia"),
   (rePlaceBeforeColon, "place_before_colon")]

/-- The DOI body `10\.\d{4,}/[^\s]+`. -/
def doiCore : RE :=
  reCat [.lit '1', .lit '0', .lit '.', reRep dgt 4, .starG dgt, .lit '/',
    rePlus (.cls ⟨true, [.space]⟩)]

/-- Pattern `\b(10\.\d{4,}/[^\s]+)\b` (`doi_standard`). -/
def reDoiStandard : RE := reCat [.wb, .group 1 doiCore, .wb]

/-- Pattern `doi\.org/(10\.\d{4,}/[^\s]+)` (`doi_url`). -/
def reDoiUrl : RE := reCat [litStr "doi.org/", .group 1 doiCore]

/-- Pattern `[Dd][Oo][Ii]:\s*(10\.\d{4,}/[^\s]+)` (`doi_prefix`). -/
def reDoiPrefixed : RE :=
  reCat [chCls ['D', 'd'], chCls ['O', 'o'], chCls ['I', 'i'], .lit ':',
    .starG spc, .group 1 doiCore]

/-- The list `DOI_PATTERNS`. -/
def DOI_PATTERNS : List (RE × String) :=
  [(reDoiStandard, "doi_standard"),
   (reDoiUrl, "doi_url"),
   (reDoiPrefixed, "doi_prefix")]

/-- Class `[:\s]`. -/
def colonSpcCls : RE := .cls ⟨false, [.ch ':', .space]⟩

/-- Optional separator `[-–\s]?` inside ISBN bodies. -/
def isbnSep : RE := .opt (.cls ⟨false, [.ch '-', .ch '–', .space]⟩)

/-- Pattern `\bISSN[:\s]*(\d{4}[-–]\d{3}[\dXx])\b` (`issn`). -/
def reIssn : RE :=
  reCat [.wb, litStr "ISSN", .starG colonSpcCls,
    .group 1 (reCat [reRep dgt 4, chCls ['-', '–'], reRep dgt 3,
      .cls ⟨false, [.digit, .ch 'X', .ch 'x']⟩]), .wb]

/-- Pattern
`\bISBN[:\s]*(97[89][-–\s]?\d{1,5}[-–\s]?\d{1,7}[-–\s]?\d{1,7}[-–\s]?\d)\b`
(`isbn13`). -/
def reIsbn13 : RE :=
  reCat [.wb, litStr "ISBN", .starG colonSpcCls,
    .group 1 (reCat [.lit '9', .lit '7', chCls ['8', '9'], isbnSep,
      reRange dgt 1 5, isbnSep, reRange dgt 1 7, isbnSep, reRange dgt 1 7,
      isbnSep, dgt]), .wb]

/-- Pattern
`\bISBN[:\s]*(\d{1,5}[-–\s]?\d{1,7}[-–\s]?\d{1,7}[-–\s]?[\dXx])\b`
(`isbn10`). -/
def reIsbn10 : RE :=
  reCat [.wb, litStr "ISBN", .starG colonSpcCls,
    .group 1 (reCat [reRange dgt 1 5, isbnSep, reRange dgt 1 7, isbnSep,
      reRange dgt 1 7, isbnSep, .cls ⟨false, [.digit, .ch 'X', .ch 'x']⟩]),
    .wb]

/-- The list `IDENTIFIER_PATTERNS`. -/
def IDENTIFIER_PATTERNS : List (RE × String) :=
  [(reIssn, "issn"), (reIsbn13, "isbn13"), (reIsbn10, "isbn10")]

/-! ## `PatternMatch` and the rule-based extractor (`rule_based.py`) -/

/-- Transliterates `BoundingBox` of `models/evidence.py`. -/
structure BoundingBox where
  x1 : ℚ
  y1 : ℚ
  x2 : ℚ
  y2 : ℚ
deriving DecidableEq

/-- Transliterates the `PatternMatch` dataclass of `patterns.py`
(`end` is renamed `endPos`, `end` being reserved in Lean). -/
structure PatternMatch where
  field_name : String
  value : String
  raw_match : String
  start : Nat
  endPos : Nat
  confidence : ℚ := mkRat 1 1
  pattern_name : Option String := none
  page_number : Option Nat := none
  bbox : Option BoundingBox := none
deriving DecidableEq

/-- Transliterates the `ExtractionResult` dataclass of `rule_based.py`
(`year` is an `int` in Python once set, the other best values are
strings; the `matches` list is renamed `matchList`, `matches` being
reserved in Lean). -/
structure ExtractionResult where
  year : Option ℤ := none
  pages : Option String := none
  volume : Option String := none
  issue : Option String := none
  series : Option String := none
  place : Option String := none
  doi : Option String := none
  issn : Option String := none
  isbn : Option String := none
  matchList : List PatternMatch := []
  source_text : String := ""
deriving DecidableEq

/-- Transliterates the constructor arguments of `RuleBasedExtractor`. -/
structure RuleBasedExtractor where
  extract_all_matches : Bool := true
  min_confidence : ℚ := mkRat 1 2
deriving DecidableEq

/-- The marker words of `_calculate_year_confidence` that raise the
confidence. -/
def yearBonusMarkers : List String := ["published", "copyright", "©", "année", "год"]

/-- The marker words of `_calculate_year_confidence` that lower the
confidence. -/
def yearPenaltyMarkers : List String := ["p.", "pp.", "page", "vol"]

/-- Transliterates `RuleBasedExtractor._calculate_year_confidence`.  The
context window is `text[max(0, start - 20) : end + 20].lower()` and the
marker tests are substring tests on it. -/
def calculate_year_confidence (pattern_name : String) (t : List Char)
    (md : RawMatch) : ℚ :=
  let confidence : ℚ := mkRat 4 5
  let confidence := if pattern_name = "year_copyright" then mkRat 19 20 else confidence
  let confidence := if pattern_name = "year_parentheses" then mkRat 9 10 else confidence
  let context_start := md.start - 20
  let context := ((t.drop context_start).take (md.stop + 20 - context_start)).map foldLower
  let confidence :=
    if yearBonusMarkers.any (fun w => containsSub context w.data) then
      qmin (mkRat 1 1) (qadd confidence (mkRat 1 10))
    else confidence
  if yearPenaltyMarkers.any (fun w => containsSub context w.data) then
    qmax (mkRat 3 10) (qsub confidence (mkRat 3 10))
  else confidence

/-- Transliterates `RuleBasedExtractor._extract_year`: every match of
every year pattern whose captured group parses to a valid year becomes a
`PatternMatch` with the context-derived confidence. -/
def extract_year (t : List Char) (page_number : Option Nat) : List PatternMatch :=
  YEAR_PATTERNS.flatMap fun p =>
    (finditer t p.1).filterMap fun md =>
      match strToNatDigits ((md.group t 1).getD "") with
      | none => none
      | some y =>
        if is_valid_year y then
          some { field_name := "year", value := strOfInt y,
                 raw_match := md.group0 t, start := md.start,
                 endPos := md.stop,
                 confidence := calculate_year_confidence p.2 t md,
                 pattern_name := some p.2, page_number := page_number }
        else none

/-- Transliterates `RuleBasedExtractor._extract_pages`: a range (second
group captured) scores 0.9 and is normalized `start-end`, a single page
scores 0.7. -/
def extract_pages (t : List Char) (page_number : Option Nat) : List PatternMatch :=
  PAGE_PATTERNS.flatMap fun p =>
    (finditer t p.1).map fun md =>
      let g1 := (md.group t 1).getD ""
      let pages :=
        match md.group t 2 with
        | some g2 => if g2 ≠ "" then normalize_page_range g1 g2 else g1
        | none => g1
      let confidence : ℚ :=
        match md.group t 2 with
        | some g2 => if g2 ≠ "" then mkRat 9 10 else mkRat 7 10
        | none => mkRat 7 10
      { field_name := "pages", value := pages, raw_match := md.group0 t,
        start := md.start, endPos := md.stop, confidence := confidence,
        pattern_name := some p.2, page_number := page_number }

/-- Whether `volume.upper()` with every `IVXLCDM` removed is empty (the
Roman-numeral test of `_extract_volume`). -/
def isRomanOnly (s : String) : Bool :=
  s.data.all fun c => foldUpper c ∈ (['I', 'V', 'X', 'L', 'C', 'D', 'M'] : List Char)

/-- Transliterates `RuleBasedExtractor._extract_volume`: Roman-numeral
captures are normalized through `roman_to_int` (which never raises), all
matches score 0.85. -/
def extract_volume (t : List Char) (page_number : Option Nat) : List PatternMatch :=
  VOLUME_PATTERNS.flatMap fun p =>
    (finditer t p.1).map fun md =>
      let volume := (md.group t 1).getD ""
      let volume := if isRomanOnly volume then strOfInt (roman_to_int volume) else volume
      { field_name := "volume", value := volume, raw_match := md.group0 t,
        start := md.start, endPos := md.stop, confidence := mkRat 17 20,
        pattern_name := some p.2, page_number := page_number }

/-- Transliterates `RuleBasedExtractor._extract_issue` (confidence 0.85). -/
def extract_issue (t : List Char) (page_number : Option Nat) : List PatternMatch :=
  ISSUE_PATTERNS.flatMap fun p =>
    (finditer t p.1).map fun md =>
      { field_name := "issue", value := (md.group t 1).getD "",
        raw_match := md.group0 t, start := md.start, endPos := md.stop,
        confidence := mkRat 17 20, pattern_name := some p.2,
        page_number := page_number }

/-- Transliterates `RuleBasedExtractor._extract_series`: the first group
if the pattern has one, the whole match otherwise; confidence 0.8. -/
def extract_series (t : List Char) (page_number : Option Nat) : List PatternMatch :=
  SERIES_PATTERNS.flatMap fun p =>
    (finditer t p.1).map fun md =>
      let value :=
        match md.group t 1 with
        | some g => g
        | none => md.group0 t
      { field_name := "series", value := value, raw_match := md.group0 t,
        start := md.start, endPos := md.stop, confidence := mkRat 4 5,
        pattern_name := some p.2, page_number := page_number }

/-- Transliterates `RuleBasedExtractor._extract_place` (0.9 for the two
major-city patterns, 0.75 otherwise). -/
def extract_place (t : List Char) (page_number : Option Nat) : List PatternMatch :=
  PLACE_PATTERNS.flatMap fun p =>
    (finditer t p.1).map fun md =>
      let confidence : ℚ :=
        if p.2 = "place_major" ∨ p.2 = "place_major2" then mkRat 9 10
        else mkRat 3 4
      { field_name := "place", value := (md.group t 1).getD "",
        raw_match := md.group0 t, start := md.start, endPos := md.stop,
        confidence := confidence, pattern_name := some p.2,
        page_number := page_number }

/-- Transliterates `RuleBasedExtractor._extract_doi` (confidence 0.95). -/
def extract_doi (t : List Char) (page_number : Option Nat) : List PatternMatch :=
  DOI_PATTERNS.flatMap fun p =>
    (finditer t p.1).map fun md =>
      { field_name := "doi", value := (md.group t 1).getD "",
        raw_match := md.group0 t, start := md.start, endPos := md.stop,
        confidence := mkRat 19 20, pattern_name := some p.2,
        page_number := page_number }

/-- Python `value.replace("–", "-").replace(" ", "")`. -/
def stripIdentifier (s : String) : String :=
  String.mk (s.data.foldr
    (fun c acc => if c = ' ' then acc else (if c = '–' then '-' else c) :: acc) [])

/-- Transliterates `RuleBasedExtractor._extract_identifiers`: the field
name IS the pattern name (`issn`, `isbn13`, `isbn10`), dashes are
normalized and blanks stripped from the captured value; confidence
0.95. -/
def extract_identifiers (t : List Char) (page_number : Option Nat) : List PatternMatch :=
  IDENTIFIER_PATTERNS.flatMap fun p =>
    (finditer t p.1).map fun md =>
      { field_name := p.2, value := stripIdentifier ((md.group t 1).getD ""),
        raw_match := md.group0 t, start := md.start, endPos := md.stop,
        confidence := mkRat 19 20, pattern_name := some p.2,
        page_number := page_number }

/-- The `field_map` of `_set_best_values`, in its insertion order:
`isbn13` and `isbn10` both map to the single `isbn` slot, after the
plain `isbn` key. -/
def field_map : List (String × String) :=
  [("year", "year"), ("pages", "pages"), ("volume", "volume"),
   ("issue", "issue"), ("series", "series"), ("place", "place"),
   ("doi", "doi"), ("issn", "issn"), ("isbn", "isbn"),
   ("isbn13", "isbn"), ("isbn10", "isbn")]

/-- Whether `getattr(result, result_field)` is non-`None` for a best-value
slot of `ExtractionResult`. -/
def erIsSet (r : ExtractionResult) (rf : String) : Bool :=
  if rf = "year" then r.year.isSome
  else if rf = "pages" then r.pages.isSome
  else if rf = "volume" then r.volume.isSome
  else if rf = "issue" then r.issue.isSome
  else if rf = "series" then r.series.isSome
  else if rf = "place" then r.place.isSome
  else if rf = "doi" then r.doi.isSome
  else if rf = "issn" then r.issn.isSome
  else if rf = "isbn" then r.isbn.isSome
  else false

/-- `setattr(result, result_field, value)` for a string value. -/
def erSetStr (r : ExtractionResult) (rf : String) (v : String) : ExtractionResult :=
  if rf = "pages" then { r with pages := some v }
  else if rf = "volume" then { r with volume := some v }
  else if rf = "issue" then { r with issue := some v }
  else if rf = "series" then { r with series := some v }
  else if rf = "place" then { r with place := some v }
  else if rf = "doi" then { r with doi := some v }
  else if rf = "issn" then { r with issn := some v }
  else if rf = "isbn" then { r with isbn := some v }
  else r

/-- Python `max(matches, key=lambda m: m.confidence)`: the first match of
maximal confidence. -/
def maxByConfidence (m : PatternMatch) (rest : List PatternMatch) : PatternMatch :=
  rest.foldl (fun best cand => if best.confidence < cand.confidence then cand else best) m

/-- One entry of the `_set_best_values` loop: filter the matches of the
entry's field at or above the confidence threshold, skip if the result
slot is already set, otherwise store the best value (years are parsed to
`int`, a failed parse skips the field). -/
def applyBestValue (cfg : RuleBasedExtractor) (r : ExtractionResult)
    (entry : String × String) : ExtractionResult :=
  match r.matchList.filter
      (fun m => m.field_name = entry.1 ∧ cfg.min_confidence ≤ m.confidence) with
  | [] => r
  | m :: rest =>
    if erIsSet r entry.2 then r
    else
      let best := maxByConfidence m rest
      if entry.1 = "year" then
        match strToNatDigits best.value with
        | some y => { r with year := some (y : ℤ) }
        | none => r
      else erSetStr r entry.2 best.value

/-- Transliterates `RuleBasedExtractor._set_best_values`. -/
def set_best_values (cfg : RuleBasedExtractor) (r : ExtractionResult) : ExtractionResult :=
  field_map.foldl (applyBestValue cfg) r

/-- The first statements of `RuleBasedExtractor.extract`: the fresh
result holding the source text and the matches of every extractor, run
in source order. -/
def extractRaw (text : String) (page_number : Option Nat) : ExtractionResult :=
  let t := text.data
  { source_text := text,
    matchList :=
      extract_year t page_number ++ extract_pages t page_number ++
      extract_volume t page_number ++ extract_issue t page_number ++
      extract_series t page_number ++ extract_place t page_number ++
      extract_doi t page_number ++ extract_identifiers t page_number }

/-- Transliterates `RuleBasedExtractor.extract`: run every extractor in
order, collecting all matches, then derive the per-field best values. -/
def RuleBasedExtractor.extract (cfg : RuleBasedExtractor) (text : String)
    (page_number : Option Nat := none) : ExtractionResult :=
  set_best_values cfg (extractRaw text page_number)

/-! ## Evidence and record models (`models/evidence.py`, `models/bibliography.py`) -/

/-- Transliterates the `EvidenceType` enum. -/
inductive EvidenceType where
  | ocr_text
  | pdf_text
  | image_capture
  | web_search
  | user_input
deriving DecidableEq

/-- Transliterates the `Evidence` model.  Its `metadata` dict holds, in
this pipeline, at most the `"pattern"` key (the merger stores the match's
pattern name there); values of the dict are optional strings. -/
structure Evidence where
  field_name : String
  value : String
  evidence_type : EvidenceType
  page_number : Option Nat := none
  source_text : Option String := none
  bbox : Option BoundingBox := none
  confidence : ℚ := mkRat 1 1
  image_path : Option String := none
  web_url : Option String := none
  metadata : List (String × Option String) := []
deriving DecidableEq

/-- Transliterates the `Author` model. -/
structure Author where
  family : Option String := none
  given : Option String := none
  literal : Option String := none
deriving DecidableEq

/-- Transliterates the `DateParts` model. -/
structure DateParts where
  year : Option ℤ := none
  month : Option ℤ := none
  day : Option ℤ := none
deriving DecidableEq

/-- Python truthiness of an optional string field (`None` and `""` are
falsy). -/
def optStrTruthy : Option String → Bool
  | some s => s ≠ ""
  | none => false

/-- Values that can appear in the merged field dictionary: strings (rule
evidence values and most LM fields), the LM's integer year, the LM's
author list, and the structured date produced for `issued`. -/
inductive MValue where
  | str (s : String)
  | int (n : ℤ)
  | authorList (l : List Author)
  | date (d : DateParts)
deriving DecidableEq

/-- Python truthiness of an `MValue` (a `DateParts` model instance is
always truthy). -/
def MValue.truthy : MValue → Bool
  | .str s => s ≠ ""
  | .int n => n ≠ 0
  | .authorList l => l ≠ []
  | .date _ => true

/-- Python `int(...)` applied to a merged value (`ValueError`/`TypeError`
are modelled as `none`). -/
def mvToInt : MValue → Option ℤ
  | .int n => some n
  | .str s => (strToNatDigits s).map Int.ofNat
  | _ => none

/-! ### Python `dict` as an insertion-ordered association list -/

/-- Python `d.get(k)` / `d[k]`. -/
def dget {α : Type} (d : List (String × α)) (k : String) : Option α :=
  (d.find? fun p => p.1 == k).map fun p => p.2

/-- Python `d[k] = v`: overwrite in place, else append. -/
def dset {α : Type} : List (String × α) → String → α → List (String × α)
  | [], k, v => [(k, v)]
  | p :: rest, k, v => if p.1 = k then (k, v) :: rest else p :: dset rest k v

/-- Python `del d[k]`. -/
def derase {α : Type} (d : List (String × α)) (k : String) : List (String × α) :=
  d.filter fun p => p.1 != k

/-! ### The LM extraction result (`parsing/llm_extractor.py`) -/

/-- Transliterates the `LLMExtractionResult` dataclass. -/
structure LLMExtractionResult where
  title : Option String := none
  author : List Author := []
  container_title : Option String := none
  abstract : Option String := none
  language : Option String := none
  type : Option String := none
  publisher : Option String := none
  year : Option ℤ := none
  volume : Option String := none
  issue : Option String := none
  page : Option String := none
  model_used : String := ""
  prompt_tokens : Nat := 0
  completion_tokens : Nat := 0
  raw_response : String := ""
deriving DecidableEq

/-- One entry of `to_dict` guarded by string truthiness. -/
def strEntry (k : String) (v : Option String) : List (String × MValue) :=
  match v with
  | some s => if s ≠ "" then [(k, .str s)] else []
  | none => []

/-- Transliterates `LLMExtractionResult.to_dict`: each field is included
only when truthy, in the source's order.  No `isbn` key can ever be
produced. -/
def LLMExtractionResult.to_dict (r : LLMExtractionResult) : List (String × MValue) :=
  strEntry "title" r.title ++
  (if r.author ≠ [] then [("author", MValue.authorList r.author)] else []) ++
  strEntry "container_title" r.container_title ++
  strEntry "abstract" r.abstract ++
  strEntry "language" r.language ++
  strEntry "type" r.type ++
  strEntry "publisher" r.publisher ++
  (match r.year with
   | some n => if n ≠ 0 then [("year", MValue.int n)] else []
   | none => []) ++
  strEntry "volume" r.volume ++
  strEntry "issue" r.issue ++
  strEntry "page" r.page

/-! ## The evidence merger (`core/merger.py`) -/

/-- The two evidence sources of the priority table. -/
inductive Source where
  | rule
  | llm
deriving DecidableEq

/-- Transliterates `Merger.field_priority` (set in `Merger.__init__`). -/
def field_priority : List (String × List Source) :=
  [("doi", [.rule]), ("issn", [.rule]), ("isbn", [.rule]),
   ("year", [.rule, .llm]), ("volume", [.rule, .llm]),
   ("issue", [.rule, .llm]), ("page", [.rule, .llm]),
   ("title", [.llm, .rule]), ("author", [.llm]),
   ("container_title", [.llm, .rule]), ("abstract", [.llm]),
   ("type", [.llm])]

/-- Step 1 of `Merger.merge`: one `Evidence` per `PatternMatch`, kind
`pdf_text`, provenance preserved. -/
def matchToEvidence (m : PatternMatch) : Evidence :=
  { field_name := m.field_name, value := m.value,
    evidence_type := .pdf_text, page_number := m.page_number,
    source_text := some m.raw_match, bbox := m.bbox,
    confidence := m.confidence, metadata := [("pattern", m.pattern_name)] }

/-- Python `max(evidences, key=lambda e: e.confidence)`: first maximal. -/
def maxEvByConfidence (e : Evidence) (rest : List Evidence) : Evidence :=
  rest.foldl (fun best cand => if best.confidence < cand.confidence then cand else best) e

/-- Step 2 of `Merger.merge` as a lookup: the best rule evidence for a
field, `none` when the field has no evidence. -/
def bestRuleEvidence (evs : List Evidence) (f : String) : Option Evidence :=
  match evs.filter (fun e => e.field_name = f) with
  | [] => none
  | e :: rest => some (maxEvByConfidence e rest)

/-- The priority walk of step 3: the first source holding a value for the
field wins (`rule` looks up the best rule evidence, `llm` requires a
truthy value in the LM dict). -/
def resolveWalk (evs : List Evidence) (llmd : List (String × MValue))
    (f : String) (d : List (String × MValue)) :
    List Source → List (String × MValue)
  | [] => d
  | .rule :: rest =>
    match bestRuleEvidence evs f with
    | some e => dset d f (.str e.value)
    | none => resolveWalk evs llmd f d rest
  | .llm :: rest =>
    match dget llmd f with
    | some v => if v.truthy then dset d f v else resolveWalk evs llmd f d rest
    | none => resolveWalk evs llmd f d rest

/-- Resolve one field by its priority list (unlisted fields default to
`[llm, rule]`). -/
def resolveField (evs : List Evidence) (llmd : List (String × MValue))
    (d : List (String × MValue)) (f : String) : List (String × MValue) :=
  resolveWalk evs llmd f d ((dget field_priority f).getD [.llm, .rule])

/-- The union of step 3: fields with rule evidence, fields of the LM
dict, fields of the priority table.  Python iterates this as a `set`,
whose order is unspecified; each field is resolved independently and at
most once, so only membership matters — the embedding fixes this
enumeration order. -/
def allFieldNames (evs : List Evidence) (llmd : List (String × MValue)) : List String :=
  (evs.map (fun e => e.field_name) ++ llmd.map (fun p => p.1) ++
    field_priority.map (fun p => p.1)).dedup

/-- Steps 1–4 of `Merger.merge`: the evidence list, the priority
resolution, and the LM-only override of `author`, `abstract`, `type`. -/
def mergeResolve (rule_results : List ExtractionResult)
    (llm_result : LLMExtractionResult) :
    List (String × MValue) × List Evidence :=
  let all_evidence := rule_results.flatMap fun r => r.matchList.map matchToEvidence
  let llmd := llm_result.to_dict
  let final0 := (allFieldNames all_evidence llmd).foldl
    (resolveField all_evidence llmd) []
  let final1 := ["author", "abstract", "type"].foldl
    (fun d f =>
      match dget llmd f with
      | some v => dset d f v
      | none => d)
    final0
  (final1, all_evidence)

/-- Step 5 of `Merger.merge`: a `year` value that parses as an integer
becomes a year-only `DateParts` under `issued`; the scalar `year` key is
deleted in both cases (a failed parse is silently ignored). -/
def mergeYearFix (d : List (String × MValue)) : List (String × MValue) :=
  match dget d "year" with
  | some v =>
    let d1 :=
      match mvToInt v with
      | some n => dset d "issued" (.date { year := some n })
      | none => d
    derase d1 "year"
  | none => d

/-- Transliterates `Merger.merge`. -/
def Merger.merge (rule_results : List ExtractionResult)
    (llm_result : LLMExtractionResult) :
    List (String × MValue) × List Evidence :=
  let p := mergeResolve rule_results llm_result
  (mergeYearFix p.1, p.2)

/-! ## The bibliography record and its fixed-weight confidence
(`models/bibliography.py`) -/

/-- Transliterates the `RecordStatus` enum. -/
inductive RecordStatus where
  | confirmed
  | needs_review
  | failed
deriving DecidableEq

/-- Transliterates the `BibliographyRecord` model (CSL-JSON-shaped). -/
structure BibliographyRecord where
  id : String
  type : String := "article"
  title : Option String := none
  author : List Author := []
  issued : Option DateParts := none
  container_title : Option String := none
  volume : Option String := none
  issue : Option String := none
  page : Option String := none
  publisher : Option String := none
  publisher_place : Option String := none
  collection_title : Option String := none
  collection_number : Option String := none
  doi : Option String := none
  issn : Option String := none
  isbn : Option String := none
  language : Option String := none
  abstract : Option String := none
  status : RecordStatus := .needs_review
  confidence : ℚ := mkRat 0 1
  evidence : List Evidence := []
  source_file : Option String := none
deriving DecidableEq

/-- Count of truthy required fields (`title`, `author`, `issued`) of
`calculate_confidence`; a `DateParts` instance is always truthy. -/
def requiredPresent (r : BibliographyRecord) : Nat :=
  (if optStrTruthy r.title then 1 else 0) +
  (if r.author ≠ [] then 1 else 0) +
  (if r.issued.isSome then 1 else 0)

/-- Count of truthy structure fields (`container_title`, `volume`,
`issue`, `page`). -/
def structurePresent (r : BibliographyRecord) : Nat :=
  (if optStrTruthy r.container_title then 1 else 0) +
  (if optStrTruthy r.volume then 1 else 0) +
  (if optStrTruthy r.issue then 1 else 0) +
  (if optStrTruthy r.page then 1 else 0)

/-- Count of truthy publication fields (`publisher`, `publisher_place`). -/
def publicationPresent (r : BibliographyRecord) : Nat :=
  (if optStrTruthy r.publisher then 1 else 0) +
  (if optStrTruthy r.publisher_place then 1 else 0)

/-- Transliterates `BibliographyRecord.calculate_confidence`: the simple
fixed-weight completeness score
`required/3 * 0.6 + structure/4 * 0.25 + publication/2 * 0.15`, rounded
to two decimals.  (The source's `if self.issued and self.issued.year:
required_present += 0` line is a no-op and is omitted.) -/
def calculate_confidence (r : BibliographyRecord) : ℚ :=
  roundTo2 (qadd (qadd
    (qmul (qdiv (mkRat (requiredPresent r) 1) (mkRat 3 1)) (mkRat 3 5))
    (qmul (qdiv (mkRat (structurePresent r) 1) (mkRat 4 1)) (mkRat 1 4)))
    (qmul (qdiv (mkRat (publicationPresent r) 1) (mkRat 2 1)) (mkRat 3 20)))

/-- Transliterates `BibliographyRecord.determine_status`: store the
rounded score in `confidence` and grade it at the fixed thresholds 0.8
and 0.4.  (Python mutates `self` and returns the status; the embedding
returns the updated record.) -/
def BibliographyRecord.determine_status (r : BibliographyRecord) : BibliographyRecord :=
  let confidence := calculate_confidence r
  { r with
    confidence := confidence,
    status :=
      if mkRat 4 5 ≤ confidence then .confirmed
      else if mkRat 2 5 ≤ confidence then .needs_review
      else .failed }

/-! ## The category-weighted confidence scorer (`validation/scorer.py`) -/

/-- Transliterates the scorer's `DocumentType` enum. -/
inductive ScorerDocumentType where
  | article
  | book
  | chapter
  | report
  | thesis
  | proceedings
  | unknown
deriving DecidableEq

/-- Values of the plain field dictionary the scorer consumes (its
`record: dict[str, Any]` argument): strings, integers, author lists. -/
inductive SVal where
  | str (s : String)
  | int (n : ℤ)
  | authorList (l : List Author)
deriving DecidableEq

/-- Transliterates `ConfidenceScorer._is_field_present`: absent, a
blank-only string, and an empty list are not present. -/
def svalPresent : Option SVal → Bool
  | none => false
  | some (.str s) => ¬ s.data.all isSpaceChar
  | some (.int _) => true
  | some (.authorList l) => l ≠ []

/-- Python truthiness of `record.get(field)` on scorer values. -/
def svalTruthy : Option SVal → Bool
  | none => false
  | some (.str s) => s ≠ ""
  | some (.int n) => n ≠ 0
  | some (.authorList l) => l ≠ []

/-- Transliterates `ConfidenceScorer._score_title` (on the string the
pipeline can put there; a non-string would raise in the source). -/
def score_title (v : SVal) : ℚ :=
  match v with
  | .str title =>
    if title.length < 5 then mkRat 3 10
    else if title.length < 15 then mkRat 7 10
    else if 500 < title.length then mkRat 4 5
    else mkRat 1 1
  | _ => mkRat 1 1

/-- Transliterates `ConfidenceScorer._score_authors`: 1.0 when every
author has a usable `family` or `literal` name, 0.7 when only some do,
0.0 when none do.  Iterating a string yields characters, none of which
are dicts, hence 0.0. -/
def score_authors (v : SVal) : ℚ :=
  match v with
  | .authorList l =>
    if l = [] then mkRat 0 1
    else
      let valid := (l.filter fun a => optStrTruthy a.family ∨ optStrTruthy a.literal).length
      if valid = 0 then mkRat 0 1
      else if valid < l.length then mkRat 7 10
      else mkRat 1 1
  | .str _ => mkRat 0 1
  | .int _ => mkRat 0 1

/-- The year-plausibility grades of `_score_year`. -/
def yearPlausibility (y : ℤ) : ℚ :=
  if 1800 ≤ y ∧ y ≤ 2030 then mkRat 1 1
  else if 1500 ≤ y ∧ y < 1800 then mkRat 4 5
  else mkRat 3 10

/-- Transliterates `ConfidenceScorer._score_year`: non-integers go
through `int(...)`, and any conversion failure scores 0.3. -/
def score_year (v : SVal) : ℚ :=
  match v with
  | .int y => yearPlausibility y
  | .str s =>
    match strToNatDigits s with
    | some y => yearPlausibility (y : ℤ)
    | none => mkRat 3 10
  | .authorList _ => mkRat 3 10

/-- The `^\d+(-\d+)?$` shape test of `_score_pages`, after dashes are
normalized. -/
def pagesShape (s : String) : Bool :=
  let cs := s.data.map fun c => if c = '–' ∨ c = '—' then '-' else c
  let d1 := cs.takeWhile isDigitChar
  let rest := cs.drop d1.length
  d1 ≠ [] ∧ (rest = [] ∨
    (rest.head? = some '-' ∧ rest.drop 1 ≠ [] ∧ (rest.drop 1).all isDigitChar))

/-- Transliterates `ConfidenceScorer._score_pages` (a non-string would
raise in the source and cannot reach it here). -/
def score_pages (v : SVal) : ℚ :=
  match v with
  | .str s => if pagesShape s then mkRat 1 1 else mkRat 7 10
  | _ => mkRat 7 10

/-- Transliterates `ConfidenceScorer._score_field`: absent scores 0.0,
`title` / `authors` / `year` / `pages` get their special rules, every
other present field scores 1.0. -/
def score_field (f : String) (v : Option SVal) : ℚ :=
  if ¬ svalPresent v then mkRat 0 1
  else
    match v with
    | none => mkRat 0 1
    | some w =>
      if f = "title" then score_title w
      else if f = "authors" then score_authors w
      else if f = "year" then score_year w
      else if f = "pages" then score_pages w
      else mkRat 1 1

/-- Transliterates the `FieldScore` entries collected by
`_score_category`. -/
structure FieldScore where
  field_name : String
  is_present : Bool
  weight : ℚ
  score : ℚ
deriving DecidableEq

/-- Transliterates `ConfidenceScorer._score_category`: the weighted mean
of the field scores of one category (0.0 for an empty weight table). -/
def score_category (rec : List (String × SVal)) (fields : List (String × ℚ)) :
    ℚ × List FieldScore :=
  let total_weight := fields.foldl (fun acc p => qadd acc p.2) (mkRat 0 1)
  let scores := fields.map fun p =>
    let v := dget rec p.1
    ({ field_name := p.1, is_present := svalPresent v, weight := p.2,
       score := score_field p.1 v } : FieldScore)
  let weighted_sum := scores.foldl (fun acc fs => qadd acc (qmul fs.score fs.weight)) (mkRat 0 1)
  (if mkRat 0 1 < total_weight then qdiv weighted_sum total_weight else mkRat 0 1, scores)

/-- The weight table `REQUIRED_FIELDS`. -/
def REQUIRED_FIELDS : List (String × ℚ) :=
  [("title", mkRat 7 20), ("authors", mkRat 7 20), ("year", mkRat 3 10)]

/-- The weight table `STRUCTURE_FIELDS`. -/
def STRUCTURE_FIELDS : List (String × ℚ) :=
  [("container_title", mkRat 3 10), ("volume", mkRat 1 4),
   ("issue", mkRat 1 5), ("pages", mkRat 1 4)]

/-- The weight table `PUBLICATION_FIELDS`. -/
def PUBLICATION_FIELDS : List (String × ℚ) :=
  [("publisher", mkRat 1 2), ("publisher_place", mkRat 1 2)]

/-- The weight table `IDENTIFIER_FIELDS`. -/
def IDENTIFIER_FIELDS : List (String × ℚ) :=
  [("doi", mkRat 1 2), ("issn", mkRat 1 4), ("isbn", mkRat 1 4)]

/-- Transliterates `ConfidenceScorer._detect_document_type`: an explicit
`document_type` tag wins, else container+volume means article, publisher
without container or an ISBN means book, else unknown. -/
def detect_document_type (rec : List (String × SVal)) : ScorerDocumentType :=
  let explicit : String :=
    match dget rec "document_type" with
    | some (.str s) => String.mk (s.data.map foldLower)
    | _ => ""
  if explicit ≠ "" then
    if explicit = "article" then .article
    else if explicit = "book" then .book
    else if explicit = "chapter" then .chapter
    else if explicit = "report" then .report
    else if explicit = "thesis" then .thesis
    else if explicit = "proceedings" then .proceedings
    else .unknown
  else if svalTruthy (dget rec "container_title") ∧ svalTruthy (dget rec "volume") then
    .article
  else if svalTruthy (dget rec "publisher") ∧ ¬ svalTruthy (dget rec "container_title") then
    .book
  else if svalTruthy (dget rec "isbn") then .book
  else .unknown

/-- Transliterates `ConfidenceScorer._adjust_for_document_type`: books
missing a container title gain up to 0.05 (capped at 1.0), articles
missing one lose up to 0.10 (floored at 0.0). -/
def adjust_for_document_type (score : ℚ) (rec : List (String × SVal))
    (doc_type : ScorerDocumentType) : ℚ :=
  let score :=
    if doc_type = .book ∧ ¬ svalTruthy (dget rec "container_title") then
      qmin (mkRat 1 1) (qadd score (mkRat 1 20))
    else score
  if doc_type = .article ∧ ¬ svalTruthy (dget rec "container_title") then
    qmax (mkRat 0 1) (qsub score (mkRat 1 10))
  else score

/-- Transliterates the `ConfidenceScorer` thresholds (constructor
arguments default, through Python `or`, to 0.75 and 0.40). -/
structure ConfidenceScorer where
  confirmed_threshold : ℚ := mkRat 3 4
  needs_review_threshold : ℚ := mkRat 2 5
deriving DecidableEq

/-- Transliterates `create_scorer` / `ConfidenceScorer.__init__`: a
passed threshold of `None` — or `0`, by Python `or`-truthiness — falls
back to the class default. -/
def create_scorer (ct nrt : Option ℚ) : ConfidenceScorer :=
  { confirmed_threshold :=
      match ct with
      | some q => if q ≠ 0 then q else mkRat 3 4
      | none => mkRat 3 4,
    needs_review_threshold :=
      match nrt with
      | some q => if q ≠ 0 then q else mkRat 2 5
      | none => mkRat 2 5 }

/-- Transliterates `ConfidenceScorer._determine_status`. -/
def scorer_determine_status (sc : ConfidenceScorer) (score : ℚ) : RecordStatus :=
  if sc.confirmed_threshold ≤ score then .confirmed
  else if sc.needs_review_threshold ≤ score then .needs_review
  else .failed

/-- Transliterates the `ScoringResult` dataclass. -/
structure ScoringResult where
  overall_score : ℚ := mkRat 0 1
  status : RecordStatus := .needs_review
  field_scores : List FieldScore := []
  document_type : ScorerDocumentType := .unknown
  required_score : ℚ := mkRat 0 1
  structure_score : ℚ := mkRat 0 1
  publication_score : ℚ := mkRat 0 1
  identifier_score : ℚ := mkRat 0 1
deriving DecidableEq

/-- Transliterates `ConfidenceScorer.score`: category scores combined
with weights 0.50 / 0.25 / 0.15 / 0.10, adjusted for the detected
document type, graded at the scorer's thresholds. -/
def ConfidenceScorer.score (sc : ConfidenceScorer) (rec : List (String × SVal)) :
    ScoringResult :=
  let document_type := detect_document_type rec
  let req := score_category rec REQUIRED_FIELDS
  let str := score_category rec STRUCTURE_FIELDS
  let pub := score_category rec PUBLICATION_FIELDS
  let idf := score_category rec IDENTIFIER_FIELDS
  let overall := qadd (qadd (qadd
    (qmul req.1 (mkRat 1 2)) (qmul str.1 (mkRat 1 4)))
    (qmul pub.1 (mkRat 3 20))) (qmul idf.1 (mkRat 1 10))
  let overall := adjust_for_document_type overall rec document_type
  { overall_score := overall,
    status := scorer_determine_status sc overall,
    field_scores := req.2 ++ str.2 ++ pub.2 ++ idf.2,
    document_type := document_type,
    required_score := req.1, structure_score := str.1,
    publication_score := pub.1, identifier_score := idf.1 }

/-! ## The expansion agent (`enrichment/expansion.py`)

The agent's collaborators — page rendering, header cropping, OCR and the
LM extractor — are external to the engine and are modelled as oracles:
`headerOCR p` is the OCR text of the cropped top strip of page `p`
(`none` models a render/OCR exception, an empty string an empty OCR
result, both of which skip the page), `pageOCR p` the OCR text of the
full page, and `llmExtract` the LM extractor.  The pipeline's
`rule_based_extractor` is a default-configured `RuleBasedExtractor`.

Beyond the state the source keeps, the embedding of the loop also
returns the list of action bodies that were entered and the reason the
loop exited; these record the loop's observable events for the theorems
below and are not consulted by the algorithm itself. -/

/-- The two expansion actions. -/
inductive ActionTag where
  | running_headers
  | last_pages
deriving DecidableEq

/-- Why the agent loop stopped: the iteration bound, a complete record,
or a `False` return from `_choose_and_execute_action` (whose tag tells
whether an action body ran and changed nothing, or no action was
eligible). -/
inductive ExitKind where
  | max_iterations
  | complete
  | no_change (tag : Option ActionTag)
deriving DecidableEq

/-- The agent's collaborators (document properties and external calls). -/
structure AgentEnv where
  is_pdf : Bool
  page_count : Nat
  headerOCR : Nat → Option String
  pageOCR : Nat → Option String
  llmExtract : String → LLMExtractionResult

/-- The agent state of `ExpansionAgent.__init__`: the record under
construction, the iteration bound and counter, and one tried flag per
action. -/
structure ExpansionAgent where
  record : BibliographyRecord
  max_iterations : Nat := 2
  iteration : Nat := 0
  tried_running_headers : Bool := false
  tried_last_pages : Bool := false
deriving DecidableEq

/-- Transliterates `ExpansionAgent._is_complete`: the completeness
predicate by record type. -/
def is_complete (r : BibliographyRecord) : Bool :=
  if r.type = "article-journal" then
    optStrTruthy r.title ∧ r.author ≠ [] ∧ r.issued.isSome ∧
    optStrTruthy r.container_title ∧ optStrTruthy r.page ∧
    optStrTruthy r.volume
  else if r.type = "book" then
    optStrTruthy r.title ∧ r.author ≠ [] ∧ r.issued.isSome ∧
    optStrTruthy r.publisher ∧ optStrTruthy r.publisher_place
  else
    optStrTruthy r.title ∧ r.author ≠ [] ∧ r.issued.isSome

/-- The selection loops inside both actions: the first match of the
given field of strictly maximal confidence (`match.confidence >
best.confidence` keeps the earlier of equals). -/
def bestMatchStrict (f : String) (ms : List PatternMatch) : Option PatternMatch :=
  ms.foldl
    (fun best m =>
      if m.field_name = f then
        match best with
        | none => some m
        | some b => if b.confidence < m.confidence then some m else best
      else best)
    none

/-- Transliterates `ExpansionAgent._action_find_running_headers`: mark
the tried flag, require a PDF of at least 5 pages, OCR the header strips
of the existing pages among {4, 5, 6}, run the rule extractor on their
concatenation, and fill `page` and `volume` only if still empty. -/
def action_find_running_headers (env : AgentEnv) (a : ExpansionAgent) :
    ExpansionAgent × Bool :=
  let a := { a with tried_running_headers := true }
  if ¬ env.is_pdf ∨ env.page_count < 5 then (a, false)
  else
    let pages_to_scan := [4, 5, 6].filter fun p => p < env.page_count
    let headers_text := pages_to_scan.filterMap fun p =>
      match env.headerOCR p with
      | some s => if s ≠ "" then some s else none
      | none => none
    if headers_text = [] then (a, false)
    else
      let combined := String.intercalate "\n" headers_text
      let rule_result := RuleBasedExtractor.extract {} combined
      let best_page := bestMatchStrict "pages" rule_result.matchList
      let best_volume := bestMatchStrict "volume" rule_result.matchList
      let r0 := a.record
      let s1 : BibliographyRecord × Bool :=
        match best_page with
        | some m =>
          if ¬ optStrTruthy r0.page then ({ r0 with page := some m.value }, true)
          else (r0, false)
        | none => (r0, false)
      let s2 : BibliographyRecord × Bool :=
        match best_volume with
        | some m =>
          if ¬ optStrTruthy s1.1.volume then
            ({ s1.1 with volume := some m.value }, true)
          else (s1.1, false)
        | none => (s1.1, false)
      ({ a with record := s2.1 }, s1.2 ∨ s2.2)

/-- Transliterates `ExpansionAgent._action_find_publication_info`: mark
the tried flag, require a PDF with at least one page, OCR the last page
and (if it exists) the one before it, fill `publisher_place` from the
best rule `place` match and `publisher` from the LM extractor, only if
still empty. -/
def action_find_publication_info (env : AgentEnv) (a : ExpansionAgent) :
    ExpansionAgent × Bool :=
  let a := { a with tried_last_pages := true }
  if ¬ env.is_pdf ∨ env.page_count < 1 then (a, false)
  else
    let pages_to_scan :=
      (if 1 ≤ env.page_count then [env.page_count] else []) ++
      (if 2 ≤ env.page_count then [env.page_count - 1] else [])
    if pages_to_scan = [] then (a, false)
    else
      let last_pages_text := pages_to_scan.filterMap fun p =>
        match env.pageOCR p with
        | some s => if s ≠ "" then some s else none
        | none => none
      if last_pages_text = [] then (a, false)
      else
        let combined := String.intercalate "\n" last_pages_text
        let rule_result := RuleBasedExtractor.extract {} combined
        let best_place := bestMatchStrict "place" rule_result.matchList
        let r0 := a.record
        let s1 : BibliographyRecord × Bool :=
          match best_place with
          | some m =>
            if ¬ optStrTruthy r0.publisher_place then
              ({ r0 with publisher_place := some m.value }, true)
            else (r0, false)
          | none => (r0, false)
        let llm_result := env.llmExtract combined
        let s2 : BibliographyRecord × Bool :=
          match llm_result.publisher with
          | some pub =>
            if pub ≠ "" ∧ ¬ optStrTruthy s1.1.publisher then
              ({ s1.1 with publisher := some pub }, true)
            else (s1.1, false)
          | none => (s1.1, false)
        ({ a with record := s2.1 }, s1.2 ∨ s2.2)

/-- Transliterates `ExpansionAgent._choose_and_execute_action`: rule 1
(running headers) for article-journal records missing page or volume and
not yet tried; else rule 2 (publication info) when publisher or place is
missing and not yet tried; else no action.  The returned tag names the
action body that ran (instrumentation only). -/
def choose_and_execute_action (env : AgentEnv) (a : ExpansionAgent) :
    ExpansionAgent × Bool × Option ActionTag :=
  if a.record.type = "article-journal" ∧
      ¬ (optStrTruthy a.record.page ∧ optStrTruthy a.record.volume) ∧
      ¬ a.tried_running_headers then
    let s := action_find_running_headers env a
    (s.1, s.2, some .running_headers)
  else if ¬ (optStrTruthy a.record.publisher ∧
      optStrTruthy a.record.publisher_place) ∧ ¬ a.tried_last_pages then
    let s := action_find_publication_info env a
    (s.1, s.2, some .last_pages)
  else (a, false, none)

/-- The `while` loop of `ExpansionAgent.run`.  The fuel is the number of
iterations the guard `iteration < max_iterations` still allows; the body
never changes `iteration` or `max_iterations` except for the increment
at the top, so the two formulations agree.  Also returns the executed
action tags and the exit reason (instrumentation only). -/
def run_loop (env : AgentEnv) : Nat → ExpansionAgent →
    ExpansionAgent × List ActionTag × ExitKind
  | 0, a => (a, [], .max_iterations)
  | fuel + 1, a =>
    let a1 := { a with iteration := a.iteration + 1 }
    if is_complete a1.record then (a1, [], .complete)
    else
      let step := choose_and_execute_action env a1
      let executed : List ActionTag :=
        match step.2.2 with
        | some tg => [tg]
        | none => []
      if step.2.1 then
        let rest := run_loop env fuel step.1
        (rest.1, executed ++ rest.2.1, rest.2.2)
      else (step.1, executed, .no_change step.2.2)

/-- Transliterates `ExpansionAgent.run`: run the loop, then set the
final status through `BibliographyRecord.determine_status`. -/
def ExpansionAgent.run (env : AgentEnv) (a : ExpansionAgent) :
    ExpansionAgent × List ActionTag × ExitKind :=
  let r := run_loop env (a.max_iterations - a.iteration) a
  ({ r.1 with record := r.1.record.determine_status }, r.2.1, r.2.2)

/-- A sequence of `run()` calls on the same agent, concatenating the
logs of executed actions. -/
def runSeq (env : AgentEnv) : Nat → ExpansionAgent → ExpansionAgent × List ActionTag
  | 0, a => (a, [])
  | k + 1, a =>
    let r := a.run env
    let rest := runSeq env k r.1
    (rest.1, r.2.1 ++ rest.2)

/-! ## The pipeline (`core/pipeline.py`)

Text extraction (plain or OCR, by document type), the LM extractor and
the web-search enricher are collaborators, modelled as oracles:
`pageText p` is the text extracted from page `p` (`none` models a
per-page exception, which the source catches and skips). -/

/-- The pipeline's view of a document: its page indices and the per-page
extracted text. -/
structure PipelineDoc where
  page_indices : List Nat
  pageText : Nat → Option String

/-- Transliterates `Pipeline.run` up to the record construction
`BibliographyRecord(id=..., evidence=..., **combined_data, ...)`:
pydantic (v2, default `extra='ignore'`) keeps the keys that name record
fields and drops the rest (so `pages`, `isbn13`, `isbn10` never reach the
record), and each kept value must already have the field's shape. -/
def recordFromMerged (record_id : String) (d : List (String × MValue))
    (evs : List Evidence) (source_file : String) : BibliographyRecord :=
  let mvStr : Option MValue → Option String := fun v =>
    match v with
    | some (.str s) => some s
    | _ => none
  { id := record_id,
    type :=
      (match dget d "type" with
       | some (.str s) => s
       | _ => "article"),
    title := mvStr (dget d "title"),
    author :=
      (match dget d "author" with
       | some (.authorList l) => l
       | _ => []),
    issued :=
      (match dget d "issued" with
       | some (.date dp) => some dp
       | _ => none),
    container_title := mvStr (dget d "container_title"),
    volume := mvStr (dget d "volume"),
    issue := mvStr (dget d "issue"),
    page := mvStr (dget d "page"),
    publisher := mvStr (dget d "publisher"),
    publisher_place := mvStr (dget d "publisher_place"),
    doi := mvStr (dget d "doi"),
    issn := mvStr (dget d "issn"),
    isbn := mvStr (dget d "isbn"),
    language := mvStr (dget d "language"),
    abstract := mvStr (dget d "abstract"),
    evidence := evs,
    source_file := some source_file }

/-- Transliterates `Pipeline.run`: per-page rule extraction over the
pages whose text has any non-blank character (exceptions skip the page);
when no page yields usable text, return a fresh `FAILED` record of type
`unknown` at once; otherwise merge with the document-level LM result,
expand, enrich, and grade. -/
def Pipeline.run (doc : PipelineDoc) (env : AgentEnv)
    (llm : String → LLMExtractionResult)
    (webEnrich : BibliographyRecord → BibliographyRecord)
    (record_id : String) (source_file : String) : BibliographyRecord :=
  let page_data := doc.page_indices.filterMap fun p =>
    match doc.pageText p with
    | some s => if ¬ s.data.all isSpaceChar then some (p, s) else none
    | none => none
  let page_texts := page_data.map fun pd => pd.2
  if page_texts = [] then
    { id := record_id, status := .failed, type := "unknown" }
  else
    let rule_results := page_data.map fun pd =>
      RuleBasedExtractor.extract {} pd.2 (some pd.1)
    let full_text := String.intercalate "\n\n--- Page Break ---\n\n" page_texts
    let llm_result := llm full_text
    let merged := Merger.merge rule_results llm_result
    let record := recordFromMerged record_id merged.1 merged.2 source_file
    let agent : ExpansionAgent := { record := record }
    let afterAgent := agent.run env
    let record := webEnrich afterAgent.1.record
    record.determine_status

/-! ## Definitions supporting the claims -/

/-- The year-confidence formula of the amended claim C2, stated over a
match's recorded pattern name and span: base 0.8, overridden to 0.95 for
the copyright pattern and 0.9 for the parenthesized pattern; +0.1
(capped at 1.0) when the lower-cased context window of 20 characters on
each side contains `published`, `copyright`, `©`, `année` or `год`;
then −0.3 (floored at 0.3) when it contains `p.`, `pp.`, `page` or
`vol`. -/
def yearConfidenceAmended (pattern_name : Option String) (t : List Char)
    (s e : Nat) : ℚ :=
  let base : ℚ :=
    if pattern_name = some "year_copyright" then mkRat 19 20
    else if pattern_name = some "year_parentheses" then mkRat 9 10
    else mkRat 4 5
  let context := ((t.drop (s - 20)).take (e + 20 - (s - 20))).map foldLower
  let boosted :=
    if (["published", "copyright", "©", "année", "год"] : List String).any
        (fun w => containsSub context w.data) then
      qmin (mkRat 1 1) (qadd base (mkRat 1 10))
    else base
  if (["p.", "pp.", "page", "vol"] : List String).any
      (fun w => containsSub context w.data) then
    qmax (mkRat 3 10) (qsub boosted (mkRat 3 10))
  else boosted

/-- Number of times one action tag occurs in an execution log. -/
def countTag (tg : ActionTag) (log : List ActionTag) : Nat :=
  (log.filter fun t => t == tg).length

/-- One unit of potential per action whose tried flag is still unset
(used to bound how often an action can execute). -/
def potTag (tg : ActionTag) (a : ExpansionAgent) : Nat :=
  match tg with
  | .running_headers => if a.tried_running_headers then 0 else 1
  | .last_pages => if a.tried_last_pages then 0 else 1

/-- Whether a page's extracted text is usable for the pipeline: extraction
succeeded and the text has a non-blank character (`page_text.strip()`). -/
def usableText : Option String → Bool
  | some s => ¬ s.data.all isSpaceChar
  | none => false

/-- An environment whose document is not a PDF and whose collaborators
return nothing. -/
def trivialEnv : AgentEnv :=
  { is_pdf := false, page_count := 0, headerOCR := fun _ => none,
    pageOCR := fun _ => none, llmExtract := fun _ => {} }

/-- A record holding only a title and one well-formed author. -/
def titleAuthorRecord : BibliographyRecord :=
  { id := "r1", title := some "A Comprehensive Study",
    author := [{ family := some "Doe", given := some "J." }] }

/-- A fresh agent on `titleAuthorRecord`. -/
def titleAuthorAgent : ExpansionAgent := { record := titleAuthorRecord }

/-- The same record as a plain field dictionary, under the key names the
category-weighted scorer reads (`title`, `authors`). -/
def titleAuthorDict : List (String × SVal) :=
  [("title", .str "A Comprehensive Study"),
   ("authors", .authorList [{ family := some "Doe", given := some "J." }])]

/-- The single year match the extractor emits on `"published 2023"`. -/
def publishedYearMatch : PatternMatch :=
  { field_name := "year", value := "2023", raw_match := "2023",
    start := 10, endPos := 14, confidence := mkRat 9 10,
    pattern_name := some "year_standard", page_number := none }

/-- A 10-page PDF whose header OCR yields text without any pattern
match (`"xyz"`). -/
def headerNoMatchEnv : AgentEnv :=
  { is_pdf := true, page_count := 10,
    headerOCR := fun _ => some "xyz",
    pageOCR := fun _ => some "xyz", llmExtract := fun _ => {} }

/-- An article-journal record complete except for `page` and `volume`
(and lacking publisher information). -/
def incompleteArticleRecord : BibliographyRecord :=
  { id := "r3", type := "article-journal", title := some "A Study of Things",
    author := [{ family := some "Doe" }],
    issued := some { year := some 2023 },
    container_title := some "Journal of Testing" }

/-- A fresh agent on `incompleteArticleRecord`. -/
def incompleteArticleAgent : ExpansionAgent := { record := incompleteArticleRecord }

/-- A record satisfying the completeness predicate for its (default)
type. -/
def completeRecord : BibliographyRecord :=
  { id := "r7", title := some "T T T", author := [{ family := some "A" }],
    issued := some { year := some 2000 } }

/-- A fresh agent on `completeRecord`. -/
def completeAgent : ExpansionAgent := { record := completeRecord }

/-- A document none of whose pages yields usable text: page 1 raises,
pages 2 and 3 are blank. -/
def blankDoc : PipelineDoc :=
  { page_indices := [1, 2, 3],
    pageText := fun p => if p = 1 then none else some "  \n " }

/-! ## Dictionary lemmas -/

theorem dget_cons {α : Type} (p : String × α) (d : List (String × α)) (k : String) :
    dget (p :: d) k = if p.1 = k then some p.2 else dget d k := by
  by_cases h : p.1 = k
  · simp [dget, List.find?, h]
  · have hb : (p.1 == k) = false := by simp [h]
    simp [dget, List.find?, hb, h]

theorem dget_dset_self {α : Type} (d : List (String × α)) (k : String) (v : α) :
    dget (dset d k v) k = some v := by
  induction d with
  | nil => simp [dset, dget_cons, dget]
  | cons p rest ih =>
    by_cases h : p.1 = k
    · simp [dset, h, dget_cons]
    · simp [dset, h, dget_cons, ih]

theorem dget_dset_ne {α : Type} (d : List (String × α)) (k k' : String) (v : α)
    (h : k' ≠ k) : dget (dset d k v) k' = dget d k' := by
  induction d with
  | nil => simp [dset, dget_cons, dget, Ne.symm h]
  | cons p rest ih =>
    by_cases hp : p.1 = k
    · simp [dset, hp, dget_cons, Ne.symm h, hp ▸ Ne.symm h]
    · simp [dset, hp, dget_cons, ih]

theorem derase_cons {α : Type} (p : String × α) (d : List (String × α)) (k : String) :
    derase (p :: d) k = if p.1 = k then derase d k else p :: derase d k := by
  by_cases h : p.1 = k
  · simp [derase, List.filter_cons, h]
  · simp [derase, List.filter_cons, h]

theorem dget_derase_self {α : Type} (d : List (String × α)) (k : String) :
    dget (derase d k) k = none := by
  induction d with
  | nil => simp [derase, dget]
  | cons p rest ih =>
    by_cases h : p.1 = k
    · simp [derase_cons, h, ih]
    · simp [derase_cons, h, dget_cons, ih]

theorem dget_derase_ne {α : Type} (d : List (String × α)) (k k' : String)
    (h : k' ≠ k) : dget (derase d k) k' = dget d k' := by
  induction d with
  | nil => simp [derase, dget]
  | cons p rest ih =>
    by_cases hp : p.1 = k
    · rw [derase_cons, if_pos hp, dget_cons, if_neg (by rw [hp]; exact Ne.symm h)]
      exact ih
    · simp [derase_cons, hp, dget_cons, ih]

/-- A key absent from every entry is not found. -/
theorem dget_eq_none {α : Type} (d : List (String × α)) (k : String)
    (h : ∀ p ∈ d, p.1 ≠ k) : dget d k = none := by
  induction d with
  | nil => simp [dget]
  | cons p rest ih =>
    rw [dget_cons, if_neg (h p (by simp))]
    exact ih fun q hq => h q (by simp [hq])

/-! ## C5 — merging preserves every pattern match as evidence -/

/-- C5.  For every merge input, the evidence list returned by
`Merger.merge` holds exactly one `Evidence` per `PatternMatch` of every
per-page result: its length is the sum over pages of the number of
matches; no match is dropped even when its value loses the priority
contest. -/
theorem merge_evidence_preserving (rule_results : List ExtractionResult)
    (llm_result : LLMExtractionResult) :
    (Merger.merge rule_results llm_result).2.length =
      (rule_results.map fun r => r.matchList.length).sum := by
  show (rule_results.flatMap fun r => r.matchList.map matchToEvidence).length = _
  rw [List.length_flatMap]
  congr 1
  simp [Function.comp_def, List.length_map]

/-! ## C6 — the merged mapping never carries a scalar `year` key -/

/-- C6.  For every merge input, the mapping returned by `Merger.merge`
has no `year` key; when the resolved `year` value parses as an integer
it reappears only as a year-only structured date under `issued`, and
when it does not parse the mapping is simply the resolved mapping with
`year` deleted — no error is raised in either case. -/
theorem merge_never_scalar_year (rule_results : List ExtractionResult)
    (llm_result : LLMExtractionResult) :
    dget (Merger.merge rule_results llm_result).1 "year" = none ∧
    (match dget (mergeResolve rule_results llm_result).1 "year" with
     | some v =>
       (match mvToInt v with
        | some n =>
          dget (Merger.merge rule_results llm_result).1 "issued" =
            some (.date { year := some n })
        | none =>
          (Merger.merge rule_results llm_result).1 =
            derase (mergeResolve rule_results llm_result).1 "year")
     | none =>
       (Merger.merge rule_results llm_result).1 =
         (mergeResolve rule_results llm_result).1) := by
  have hyr : ("issued" : String) ≠ "year" := by decide
  have hmain : (Merger.merge rule_results llm_result).1 =
      mergeYearFix (mergeResolve rule_results llm_result).1 := rfl
  constructor
  · rw [hmain]
    unfold mergeYearFix
    cases h : dget (mergeResolve rule_results llm_result).1 "year" with
    | none => exact h
    | some v =>
      cases hv : mvToInt v with
      | none => simp [dget_derase_self]
      | some n => simp [dget_derase_self]
  · have key : ∀ x, dget (mergeResolve rule_results llm_result).1 "year" = x →
        (match x with
         | some v =>
           (match mvToInt v with
            | some n =>
              dget (Merger.merge rule_results llm_result).1 "issued" =
                some (.date { year := some n })
            | none =>
              (Merger.merge rule_results llm_result).1 =
                derase (mergeResolve rule_results llm_result).1 "year")
         | none =>
           (Merger.merge rule_results llm_result).1 =
             (mergeResolve rule_results llm_result).1 : Prop) := by
      intro x hx
      cases x with
      | none =>
        show (Merger.merge rule_results llm_result).1 =
          (mergeResolve rule_results llm_result).1
        rw [hmain]
        unfold mergeYearFix
        rw [hx]
      | some v =>
        have key2 : ∀ y, mvToInt v = y →
            (match y with
             | some n =>
               dget (Merger.merge rule_results llm_result).1 "issued" =
                 some (.date { year := some n })
             | none =>
               (Merger.merge rule_results llm_result).1 =
                 derase (mergeResolve rule_results llm_result).1 "year" : Prop) := by
          intro y hy
          cases y with
          | none =>
            show (Merger.merge rule_results llm_result).1 =
              derase (mergeResolve rule_results llm_result).1 "year"
            rw [hmain]
            unfold mergeYearFix
            simp only [hx, hy]
          | some n =>
            show dget (Merger.merge rule_results llm_result).1 "issued" =
              some (.date { year := some n })
            rw [hmain]
            unfold mergeYearFix
            simp only [hx, hy]
            rw [dget_derase_ne _ _ _ hyr, dget_dset_self]
        exact key2 _ rfl
    exact key _ rfl

/-! ## Extractor lemmas -/

theorem erSetStr_matchList (r : ExtractionResult) (rf : String) (v : String) :
    (erSetStr r rf v).matchList = r.matchList := by
  unfold erSetStr
  split_ifs <;> rfl

theorem applyBestValue_matchList (cfg : RuleBasedExtractor)
    (r : ExtractionResult) (e : String × String) :
    (applyBestValue cfg r e).matchList = r.matchList := by
  unfold applyBestValue
  split
  · rfl
  · split
    · rfl
    · split
      · dsimp only []
        split
        · rfl
        · rfl
      · exact erSetStr_matchList _ _ _

theorem foldl_applyBestValue_matchList (cfg : RuleBasedExtractor)
    (l : List (String × String)) (r : ExtractionResult) :
    (l.foldl (applyBestValue cfg) r).matchList = r.matchList := by
  induction l generalizing r with
  | nil => rfl
  | cons e rest ih => rw [List.foldl_cons, ih, applyBestValue_matchList]

theorem set_best_values_matchList (cfg : RuleBasedExtractor) (r : ExtractionResult) :
    (set_best_values cfg r).matchList = r.matchList :=
  foldl_applyBestValue_matchList cfg field_map r

/-- The match list of `extract` is the concatenation of the eight
extraction blocks, in source order. -/
theorem extract_matchList (cfg : RuleBasedExtractor) (text : String)
    (pn : Option Nat) :
    (cfg.extract text pn).matchList =
      extract_year text.data pn ++ extract_pages text.data pn ++
      extract_volume text.data pn ++ extract_issue text.data pn ++
      extract_series text.data pn ++ extract_place text.data pn ++
      extract_doi text.data pn ++ extract_identifiers text.data pn := by
  unfold RuleBasedExtractor.extract
  rw [set_best_values_matchList]
  rfl

theorem mem_extract_pages_field {t : List Char} {pn : Option Nat}
    {m : PatternMatch} (h : m ∈ extract_pages t pn) : m.field_name = "pages" := by
  simp only [extract_pages, List.mem_flatMap, List.mem_map] at h
  obtain ⟨p, _, md, _, rfl⟩ := h
  rfl

theorem mem_extract_volume_field {t : List Char} {pn : Option Nat}
    {m : PatternMatch} (h : m ∈ extract_volume t pn) : m.field_name = "volume" := by
  simp only [extract_volume, List.mem_flatMap, List.mem_map] at h
  obtain ⟨p, _, md, _, rfl⟩ := h
  rfl

theorem mem_extract_issue_field {t : List Char} {pn : Option Nat}
    {m : PatternMatch} (h : m ∈ extract_issue t pn) : m.field_name = "issue" := by
  simp only [extract_issue, List.mem_flatMap, List.mem_map] at h
  obtain ⟨p, _, md, _, rfl⟩ := h
  rfl

theorem mem_extract_series_field {t : List Char} {pn : Option Nat}
    {m : PatternMatch} (h : m ∈ extract_series t pn) : m.field_name = "series" := by
  simp only [extract_series, List.mem_flatMap, List.mem_map] at h
  obtain ⟨p, _, md, _, rfl⟩ := h
  rfl

theorem mem_extract_place_field {t : List Char} {pn : Option Nat}
    {m : PatternMatch} (h : m ∈ extract_place t pn) : m.field_name = "place" := by
  simp only [extract_place, List.mem_flatMap, List.mem_map] at h
  obtain ⟨p, _, md, _, rfl⟩ := h
  rfl

theorem mem_extract_doi_field {t : List Char} {pn : Option Nat}
    {m : PatternMatch} (h : m ∈ extract_doi t pn) : m.field_name = "doi" := by
  simp only [extract_doi, List.mem_flatMap, List.mem_map] at h
  obtain ⟨p, _, md, _, rfl⟩ := h
  rfl

theorem mem_extract_identifiers_field {t : List Char} {pn : Option Nat}
    {m : PatternMatch} (h : m ∈ extract_identifiers t pn) :
    m.field_name = "issn" ∨ m.field_name = "isbn13" ∨ m.field_name = "isbn10" := by
  simp only [extract_identifiers, List.mem_flatMap, List.mem_map] at h
  obtain ⟨p, hp, md, _, rfl⟩ := h
  simp only [IDENTIFIER_PATTERNS, List.mem_cons, List.not_mem_nil, or_false] at hp
  rcases hp with rfl | rfl | rfl
  · left; rfl
  · right; left; rfl
  · right; right; rfl

/-- The source's sequential confidence updates agree with the
single-expression formula of the amended claim. -/
theorem calculate_year_confidence_eq_amended (name : String) (t : List Char)
    (md : RawMatch) :
    calculate_year_confidence name t md =
      yearConfidenceAmended (some name) t md.start md.stop := by
  unfold calculate_year_confidence yearConfidenceAmended yearBonusMarkers
    yearPenaltyMarkers
  simp only [Option.some.injEq]
  by_cases h1 : name = "year_copyright"
  · by_cases h2 : name = "year_parentheses"
    · exact absurd (h1.symm.trans h2) (by decide)
    · subst h1; simp [h2]
  · by_cases h2 : name = "year_parentheses"
    · subst h2; simp [h1]
    · simp [h1, h2]

theorem mem_extract_year_field {t : List Char} {pn : Option Nat}
    {m : PatternMatch} (h : m ∈ extract_year t pn) :
    m.field_name = "year" ∧
    m.confidence = yearConfidenceAmended m.pattern_name t m.start m.endPos := by
  simp only [extract_year, List.mem_flatMap, List.mem_filterMap] at h
  obtain ⟨p, _, md, _, hc⟩ := h
  cases hval : strToNatDigits ((md.group t 1).getD "") with
  | none => rw [hval] at hc; cases hc
  | some y =>
    rw [hval] at hc
    dsimp only [] at hc
    by_cases hvy : is_valid_year (y : ℤ) = true
    · rw [if_pos hvy] at hc
      cases hc
      refine ⟨rfl, ?_⟩
      exact calculate_year_confidence_eq_amended p.2 t md
    · rw [if_neg hvy] at hc
      cases hc

set_option maxRecDepth 200000

set_option maxHeartbeats 4000000

/-! ## C2 — year-match confidence -/

/-- C2 (counterexample).  On the input `"published 2023"`, the single
year match the extractor emits carries confidence 0.9: the bonus the
code applies for the `published` marker is +0.1, not the +0.15 the claim
states, which would have produced `min(1.0, 0.8 + 0.15) = 0.95`. -/
theorem year_confidence_counterexample :
    ((RuleBasedExtractor.extract {} "published 2023" none).matchList.filter
        (fun m => m.field_name == "year")).map (fun m => m.confidence) =
      [mkRat 9 10] ∧
    qmin (mkRat 1 1) (qadd (mkRat 4 5) (mkRat 3 20)) = mkRat 19 20 ∧
    (mkRat 9 10 : ℚ) ≠ mkRat 19 20 := by
  decide

/-- C2 (amended).  Every year match emitted by `extract` has confidence
equal to a base of 0.8 (overridden to 0.95 for the copyright-marked year
pattern and 0.9 for the parenthesized year pattern), increased by 0.1
capped at 1.0 when the lower-cased context window of 20 characters on
each side contains `published`, `copyright`, `©`, `année` or `год`, then
decreased by 0.3 floored at 0.3 when that window contains `p.`, `pp.`,
`page` or `vol`. -/
theorem year_match_confidence (cfg : RuleBasedExtractor) (text : String)
    (pn : Option Nat) (m : PatternMatch)
    (hm : m ∈ (cfg.extract text pn).matchList) (hf : m.field_name = "year") :
    m.confidence = yearConfidenceAmended m.pattern_name text.data m.start m.endPos := by
  rw [extract_matchList] at hm
  simp only [List.mem_append] at hm
  rcases hm with ((((((h | h) | h) | h) | h) | h) | h) | h
  · exact (mem_extract_year_field h).2
  · rw [mem_extract_pages_field h] at hf; exact absurd hf (by decide)
  · rw [mem_extract_volume_field h] at hf; exact absurd hf (by decide)
  · rw [mem_extract_issue_field h] at hf; exact absurd hf (by decide)
  · rw [mem_extract_series_field h] at hf; exact absurd hf (by decide)
  · rw [mem_extract_place_field h] at hf; exact absurd hf (by decide)
  · rw [mem_extract_doi_field h] at hf; exact absurd hf (by decide)
  · rcases mem_extract_identifiers_field h with h1 | h1 | h1 <;>
      (rw [h1] at hf; exact absurd hf (by decide))

/-- Witness for C2 (amended): the year match of `"published 2023"`. -/
theorem year_match_confidence_witness :
    publishedYearMatch.confidence =
      yearConfidenceAmended publishedYearMatch.pattern_name
        "published 2023".data publishedYearMatch.start publishedYearMatch.endPos :=
  year_match_confidence {} "published 2023" none publishedYearMatch
    (by decide) (by decide)

/-! ## C9 — end-to-end scenario B -/

/-- C9.  On `"Bull. Soc. géol. France (7), IX, 1967, p. 750–757, Paris"`
the extractor returns year 1967 (an integer), volume `"9"` (the Roman
numeral `IX` normalized), place `"Paris"`, and the non-empty page range
`"750-757"`. -/
theorem scenario_b_extraction :
    (RuleBasedExtractor.extract {}
        "Bull. Soc. géol. France (7), IX, 1967, p. 750–757, Paris" none).year =
      some 1967 ∧
    (RuleBasedExtractor.extract {}
        "Bull. Soc. géol. France (7), IX, 1967, p. 750–757, Paris" none).volume =
      some "9" ∧
    (RuleBasedExtractor.extract {}
        "Bull. Soc. géol. France (7), IX, 1967, p. 750–757, Paris" none).place =
      some "Paris" ∧
    (RuleBasedExtractor.extract {}
        "Bull. Soc. géol. France (7), IX, 1967, p. 750–757, Paris" none).pages =
      some "750-757" := by
  decide

/-! ## C4 — ISBN-13 wins the single `isbn` slot -/

theorem erSetStr_isbn_ne (r : ExtractionResult) (rf : String) (v : String)
    (hne : rf ≠ "isbn") : (erSetStr r rf v).isbn = r.isbn := by
  unfold erSetStr
  split_ifs with h1 h2 h3 h4 h5 h6 h7
  all_goals rfl

theorem applyBestValue_isbn_of_ne (cfg : RuleBasedExtractor)
    (r : ExtractionResult) (e : String × String) (hne : e.2 ≠ "isbn") :
    (applyBestValue cfg r e).isbn = r.isbn := by
  unfold applyBestValue
  split
  · rfl
  · split
    · rfl
    · split
      · dsimp only []
        split <;> rfl
      · exact erSetStr_isbn_ne _ _ _ hne

theorem erIsSet_isbn (r : ExtractionResult) : erIsSet r "isbn" = r.isbn.isSome := rfl

theorem applyBestValue_isbn_of_isSome (cfg : RuleBasedExtractor)
    (r : ExtractionResult) (e : String × String) (h : r.isbn.isSome = true) :
    (applyBestValue cfg r e).isbn = r.isbn := by
  by_cases he : e.2 = "isbn"
  · unfold applyBestValue
    split
    · rfl
    · split
      · rfl
      · rename_i _ hguard
        rw [he, erIsSet_isbn, h] at hguard
        exact absurd rfl hguard
  · exact applyBestValue_isbn_of_ne cfg r e he

theorem foldl_conf_mem (rest : List PatternMatch) (m : PatternMatch) :
    rest.foldl (fun best cand => if best.confidence < cand.confidence then cand else best) m
      ∈ m :: rest := by
  induction rest generalizing m with
  | nil => simp
  | cons c cs ih =>
    rw [List.foldl_cons]
    by_cases hlt : m.confidence < c.confidence
    · rw [if_pos hlt]
      rcases List.mem_cons.mp (ih c) with h | h
      · rw [h]; simp
      · simp [h]
    · rw [if_neg hlt]
      rcases List.mem_cons.mp (ih m) with h | h
      · rw [h]; simp
      · simp [h]

/-- The first-maximal element of `max(key=confidence)` is in the list. -/
theorem maxByConfidence_mem (m : PatternMatch) (rest : List PatternMatch) :
    maxByConfidence m rest ∈ m :: rest :=
  foldl_conf_mem rest m

/-- The `isbn13` entry of the `_set_best_values` loop stores the best
`isbn13` value in the empty `isbn` slot. -/
theorem applyBestValue_isbn13_sets (cfg : RuleBasedExtractor)
    (r : ExtractionResult) (hnone : r.isbn = none)
    (h13 : ∃ m ∈ r.matchList, m.field_name = "isbn13" ∧ cfg.min_confidence ≤ m.confidence) :
    ∃ m ∈ r.matchList, m.field_name = "isbn13" ∧ cfg.min_confidence ≤ m.confidence ∧
      (applyBestValue cfg r ("isbn13", "isbn")).isbn = some m.value := by
  obtain ⟨m0, hm0, hf0, hc0⟩ := h13
  have hmem : m0 ∈ r.matchList.filter
      (fun m => decide (m.field_name = ("isbn13", "isbn").1 ∧ cfg.min_confidence ≤ m.confidence)) :=
    List.mem_filter.mpr ⟨hm0, by simp [hf0, hc0]⟩
  unfold applyBestValue
  cases hfil : r.matchList.filter
      (fun m => decide (m.field_name = ("isbn13", "isbn").1 ∧ cfg.min_confidence ≤ m.confidence)) with
  | nil => rw [hfil] at hmem; cases hmem
  | cons mh mt =>
    have hset : erIsSet r ("isbn13", "isbn").2 = false := by
      show r.isbn.isSome = false
      rw [hnone]
      rfl
    rw [hset]
    have hbest : maxByConfidence mh mt ∈ r.matchList.filter
        (fun m => decide (m.field_name = ("isbn13", "isbn").1 ∧ cfg.min_confidence ≤ m.confidence)) := by
      rw [hfil]
      exact maxByConfidence_mem mh mt
    have hprops := List.mem_filter.mp hbest
    refine ⟨maxByConfidence mh mt, hprops.1, ?_, ?_, ?_⟩
    · have := hprops.2
      simp only [decide_eq_true_eq] at this
      exact this.1
    · have := hprops.2
      simp only [decide_eq_true_eq] at this
      exact this.2
    · simp only [Bool.false_eq_true, if_false]
      have hne : (("isbn13", "isbn") : String × String).1 ≠ "year" := by decide
      rw [if_neg hne]
      rfl

/-- Every match of `extract` carries a field name other than `isbn`
(identifier evidence is keyed `issn` / `isbn13` / `isbn10`). -/
theorem extract_field_ne_isbn (cfg : RuleBasedExtractor) (text : String)
    (pn : Option Nat) :
    ∀ m ∈ (cfg.extract text pn).matchList, m.field_name ≠ "isbn" := by
  intro m hm
  rw [extract_matchList] at hm
  simp only [List.mem_append] at hm
  rcases hm with ((((((h | h) | h) | h) | h) | h) | h) | h
  · rw [(mem_extract_year_field h).1]; decide
  · rw [mem_extract_pages_field h]; decide
  · rw [mem_extract_volume_field h]; decide
  · rw [mem_extract_issue_field h]; decide
  · rw [mem_extract_series_field h]; decide
  · rw [mem_extract_place_field h]; decide
  · rw [mem_extract_doi_field h]; decide
  · rcases mem_extract_identifiers_field h with h1 | h1 | h1 <;> rw [h1] <;> decide

/-- The `isbn` entry of the loop is a no-op when (as for every output of
`extract`) no match is keyed `isbn`. -/
theorem applyBestValue_isbn_entry_noop (cfg : RuleBasedExtractor)
    (r : ExtractionResult) (hno : ∀ m ∈ r.matchList, m.field_name ≠ "isbn") :
    applyBestValue cfg r ("isbn", "isbn") = r := by
  unfold applyBestValue
  cases hfil : r.matchList.filter
      (fun m => decide (m.field_name = ("isbn", "isbn").1 ∧ cfg.min_confidence ≤ m.confidence)) with
  | nil => rfl
  | cons mh mt =>
    exfalso
    have hmem : mh ∈ r.matchList.filter
        (fun m => decide (m.field_name = ("isbn", "isbn").1 ∧ cfg.min_confidence ≤ m.confidence)) := by
      rw [hfil]; exact List.mem_cons_self _ _
    have h2 := List.mem_filter.mp hmem
    have h3 := h2.2
    simp only [decide_eq_true_eq] at h3
    exact hno mh h2.1 h3.1

theorem foldl_apply_isbn_ne (cfg : RuleBasedExtractor)
    (l : List (String × String)) (hl : ∀ e ∈ l, e.2 ≠ "isbn")
    (r : ExtractionResult) :
    (l.foldl (applyBestValue cfg) r).isbn = r.isbn := by
  induction l generalizing r with
  | nil => rfl
  | cons e rest ih =>
    rw [List.foldl_cons, ih (fun x hx => hl x (List.mem_cons_of_mem _ hx)) _,
      applyBestValue_isbn_of_ne cfg r e (hl e (List.mem_cons_self _ _))]

/-- Through `_set_best_values`, a present `isbn13` match at or above the
confidence threshold always claims the `isbn` slot. -/
theorem set_best_values_isbn13 (cfg : RuleBasedExtractor)
    (r : ExtractionResult) (hnone : r.isbn = none)
    (hno : ∀ m ∈ r.matchList, m.field_name ≠ "isbn")
    (h13 : ∃ m ∈ r.matchList, m.field_name = "isbn13" ∧ cfg.min_confidence ≤ m.confidence) :
    ∃ m ∈ r.matchList, m.field_name = "isbn13" ∧ cfg.min_confidence ≤ m.confidence ∧
      (set_best_values cfg r).isbn = some m.value := by
  have hsplit : field_map =
      [("year", "year"), ("pages", "pages"), ("volume", "volume"),
       ("issue", "issue"), ("series", "series"), ("place", "place"),
       ("doi", "doi"), ("issn", "issn")] ++
      [("isbn", "isbn"), ("isbn13", "isbn"), ("isbn10", "isbn")] := rfl
  rw [set_best_values, hsplit, List.foldl_append]
  rw [List.foldl_cons, List.foldl_cons, List.foldl_cons, List.foldl_nil]
  set r8 := List.foldl (applyBestValue cfg) r
    [("year", "year"), ("pages", "pages"), ("volume", "volume"),
     ("issue", "issue"), ("series", "series"), ("place", "place"),
     ("doi", "doi"), ("issn", "issn")] with hr8
  have h8isbn : r8.isbn = none := by
    rw [hr8, foldl_apply_isbn_ne cfg _ (by decide) r]
    exact hnone
  have h8ml : r8.matchList = r.matchList := by
    rw [hr8]
    exact foldl_applyBestValue_matchList cfg _ r
  rw [applyBestValue_isbn_entry_noop cfg r8 (by rw [h8ml]; exact hno)]
  obtain ⟨mb, hmb, hfb, hcb, hvb⟩ :=
    applyBestValue_isbn13_sets cfg r8 h8isbn (by rw [h8ml]; exact h13)
  rw [h8ml] at hmb
  refine ⟨mb, hmb, hfb, hcb, ?_⟩
  rw [applyBestValue_isbn_of_isSome cfg _ _ (by rw [hvb]; rfl), hvb]

/-- C4.  Whenever both an `isbn13` pattern match and an `isbn10` pattern
match pass the minimum-confidence filter, the single `isbn` slot of the
result of `extract` holds the value of an `isbn13` match — the ISBN-13
value — regardless of where the two matches occur in the text. -/
theorem isbn13_beats_isbn10 (cfg : RuleBasedExtractor) (text : String)
    (pn : Option Nat)
    (h13 : ∃ m ∈ (cfg.extract text pn).matchList,
      m.field_name = "isbn13" ∧ cfg.min_confidence ≤ m.confidence)
    (h10 : ∃ m ∈ (cfg.extract text pn).matchList,
      m.field_name = "isbn10" ∧ cfg.min_confidence ≤ m.confidence) :
    ∃ m ∈ (cfg.extract text pn).matchList,
      m.field_name = "isbn13" ∧ cfg.min_confidence ≤ m.confidence ∧
      (cfg.extract text pn).isbn = some m.value := by
  have hext : cfg.extract text pn = set_best_values cfg (extractRaw text pn) := rfl
  have hraw : (extractRaw text pn).matchList = (cfg.extract text pn).matchList := by
    rw [hext, set_best_values_matchList]
  obtain ⟨mb, hmb, hfb, hcb, hvb⟩ := set_best_values_isbn13 cfg
    (extractRaw text pn)
    rfl
    (by
      intro m hm
      exact extract_field_ne_isbn cfg text pn m (by rw [← hraw]; exact hm))
    (by rw [hraw]; exact h13)
  rw [hraw] at hmb
  refine ⟨mb, hmb, hfb, hcb, ?_⟩
  rw [hext]
  exact hvb

/-- Witness for C4: `"ISBN: 978-0-306-40615-7"` triggers both the
`isbn13` pattern and (on a prefix of the same digits) the `isbn10`
pattern, and the resulting `isbn` field is the full ISBN-13. -/
theorem isbn13_beats_isbn10_witness :
    (∃ m ∈ (RuleBasedExtractor.extract {} "ISBN: 978-0-306-40615-7" none).matchList,
      m.field_name = "isbn13" ∧
      (({} : RuleBasedExtractor)).min_confidence ≤ m.confidence ∧
      (RuleBasedExtractor.extract {} "ISBN: 978-0-306-40615-7" none).isbn =
        some m.value) ∧
    (RuleBasedExtractor.extract {} "ISBN: 978-0-306-40615-7" none).isbn =
      some "978-0-306-40615-7" :=
  ⟨isbn13_beats_isbn10 {} "ISBN: 978-0-306-40615-7" none (by decide) (by decide),
   by decide⟩

/-! ## C10 — the merged mapping never carries an `isbn` key -/

theorem mem_strEntry {p : String × MValue} {k : String} {v : Option String}
    (h : p ∈ strEntry k v) : p.1 = k := by
  unfold strEntry at h
  cases v with
  | none => cases h
  | some s =>
    dsimp only [] at h
    by_cases hs : s ≠ ""
    · rw [if_pos hs] at h
      rcases List.mem_singleton.mp h with rfl
      rfl
    · rw [if_neg hs] at h
      cases h

/-- Every key of `LLMExtractionResult.to_dict` is one of the eleven
field names of the schema; in particular none is `isbn`. -/
theorem to_dict_key_ne_isbn (r : LLMExtractionResult) :
    ∀ p ∈ r.to_dict, p.1 ≠ "isbn" := by
  intro p hp
  unfold LLMExtractionResult.to_dict at hp
  simp only [List.mem_append] at hp
  rcases hp with (((((((((h | h) | h) | h) | h) | h) | h) | h) | h) | h) | h
  · rw [mem_strEntry h]; decide
  · by_cases ha : r.author ≠ []
    · rw [if_pos ha] at h
      rcases List.mem_singleton.mp h with rfl
      show ("author" : String) ≠ "isbn"
      decide
    · rw [if_neg ha] at h
      cases h
  · rw [mem_strEntry h]; decide
  · rw [mem_strEntry h]; decide
  · rw [mem_strEntry h]; decide
  · rw [mem_strEntry h]; decide
  · rw [mem_strEntry h]; decide
  · cases hy : r.year with
    | none => rw [hy] at h; cases h
    | some n =>
      rw [hy] at h
      dsimp only [] at h
      by_cases hn : n ≠ 0
      · rw [if_pos hn] at h
        rcases List.mem_singleton.mp h with rfl
        show ("year" : String) ≠ "isbn"
        decide
      · rw [if_neg hn] at h
        cases h
  · rw [mem_strEntry h]; decide
  · rw [mem_strEntry h]; decide
  · rw [mem_strEntry h]; decide

theorem bestRuleEvidence_eq_none (evs : List Evidence) (f : String)
    (h : ∀ e ∈ evs, e.field_name ≠ f) : bestRuleEvidence evs f = none := by
  unfold bestRuleEvidence
  cases hfil : evs.filter (fun e => decide (e.field_name = f)) with
  | nil => rfl
  | cons e rest =>
    exfalso
    have hmem : e ∈ evs.filter (fun e => decide (e.field_name = f)) := by
      rw [hfil]; exact List.mem_cons_self _ _
    have h2 := List.mem_filter.mp hmem
    exact h e h2.1 (by simpa using h2.2)

theorem resolveWalk_preserve (evs : List Evidence)
    (llmd : List (String × MValue)) (f k : String) (hne : f ≠ k)
    (d : List (String × MValue)) :
    ∀ pr : List Source, dget (resolveWalk evs llmd f d pr) k = dget d k := by
  intro pr
  induction pr generalizing d with
  | nil => rfl
  | cons s rest ih =>
    cases s with
    | rule =>
      show dget (match bestRuleEvidence evs f with
        | some e => dset d f (.str e.value)
        | none => resolveWalk evs llmd f d rest) k = dget d k
      cases bestRuleEvidence evs f with
      | some e => exact dget_dset_ne d f k (.str e.value) (Ne.symm hne)
      | none => exact ih d
    | llm =>
      show dget (match dget llmd f with
        | some v => if v.truthy then dset d f v else resolveWalk evs llmd f d rest
        | none => resolveWalk evs llmd f d rest) k = dget d k
      cases dget llmd f with
      | some v =>
        dsimp only []
        by_cases hv : v.truthy
        · rw [if_pos hv]
          exact dget_dset_ne d f k v (Ne.symm hne)
        · rw [if_neg hv]
          exact ih d
      | none => exact ih d

theorem resolveField_isbn_noop (evs : List Evidence)
    (llmd : List (String × MValue)) (d : List (String × MValue))
    (hbre : bestRuleEvidence evs "isbn" = none) :
    resolveField evs llmd d "isbn" = d := by
  unfold resolveField
  have hpri : dget field_priority "isbn" = some [Source.rule] := rfl
  rw [hpri]
  show (match bestRuleEvidence evs "isbn" with
    | some e => dset d "isbn" (.str e.value)
    | none => resolveWalk evs llmd "isbn" d []) = d
  rw [hbre]
  rfl

theorem foldl_resolveField_isbn (evs : List Evidence)
    (llmd : List (String × MValue)) (fields : List String)
    (hbre : bestRuleEvidence evs "isbn" = none)
    (d : List (String × MValue)) :
    dget (fields.foldl (resolveField evs llmd) d) "isbn" = dget d "isbn" := by
  induction fields generalizing d with
  | nil => rfl
  | cons f rest ih =>
    rw [List.foldl_cons, ih]
    by_cases hf : f = "isbn"
    · rw [hf, resolveField_isbn_noop evs llmd d hbre]
    · exact resolveWalk_preserve evs llmd f "isbn" hf d _

theorem foldl_override_preserve (llmd : List (String × MValue))
    (keys : List String) (k : String) (hk : ∀ k' ∈ keys, k' ≠ k)
    (d : List (String × MValue)) :
    dget (keys.foldl
      (fun d f =>
        match dget llmd f with
        | some v => dset d f v
        | none => d) d) k = dget d k := by
  induction keys generalizing d with
  | nil => rfl
  | cons f rest ih =>
    rw [List.foldl_cons, ih (fun x hx => hk x (List.mem_cons_of_mem _ hx)) _]
    cases dget llmd f with
    | some v => exact dget_dset_ne d f k v (Ne.symm (hk f (List.mem_cons_self _ _)))
    | none => rfl

theorem dget_mergeYearFix_isbn (d : List (String × MValue)) :
    dget (mergeYearFix d) "isbn" = dget d "isbn" := by
  unfold mergeYearFix
  cases dget d "year" with
  | none => rfl
  | some v =>
    dsimp only []
    cases mvToInt v with
    | none => exact dget_derase_ne d "year" "isbn" (by decide)
    | some n =>
      rw [dget_derase_ne _ "year" "isbn" (by decide)]
      exact dget_dset_ne d "issued" "isbn" _ (by decide)

/-- C10.  For every merge of extractor outputs with an LM result, the
merged mapping has no `isbn` key: rule-based ISBN evidence is keyed by
the pattern names `isbn13` / `isbn10` (never `isbn`), the LM dict has no
`isbn` key, and the priority entry for `isbn` consults only the rule
source — so nothing ever writes the key. -/
theorem merged_mapping_no_isbn_key (cfg : RuleBasedExtractor)
    (pages : List (String × Option Nat)) (llm_result : LLMExtractionResult) :
    dget (Merger.merge (pages.map fun p => cfg.extract p.1 p.2) llm_result).1
        "isbn" = none ∧
    ((pages.map fun p => cfg.extract p.1 p.2).all fun r =>
      r.matchList.all fun m => m.field_name != "isbn") = true ∧
    dget llm_result.to_dict "isbn" = none := by
  have hllm : dget llm_result.to_dict "isbn" = none :=
    dget_eq_none _ _ (to_dict_key_ne_isbn llm_result)
  have hevs : ∀ e ∈ (pages.map fun p => cfg.extract p.1 p.2).flatMap
      (fun r => r.matchList.map matchToEvidence), e.field_name ≠ "isbn" := by
    intro e he
    rw [List.mem_flatMap] at he
    obtain ⟨r, hr, he2⟩ := he
    rw [List.mem_map] at he2
    obtain ⟨m, hm, rfl⟩ := he2
    rw [List.mem_map] at hr
    obtain ⟨p, _, rfl⟩ := hr
    show m.field_name ≠ "isbn"
    exact extract_field_ne_isbn cfg p.1 p.2 m hm
  refine ⟨?_, ?_, hllm⟩
  · have hbre := bestRuleEvidence_eq_none _ "isbn" hevs
    show dget (mergeYearFix (mergeResolve
      (pages.map fun p => cfg.extract p.1 p.2) llm_result).1) "isbn" = none
    rw [dget_mergeYearFix_isbn]
    show dget ((["author", "abstract", "type"] : List String).foldl
      (fun d f =>
        match dget llm_result.to_dict f with
        | some v => dset d f v
        | none => d)
      ((allFieldNames ((pages.map fun p => cfg.extract p.1 p.2).flatMap
          (fun r => r.matchList.map matchToEvidence)) llm_result.to_dict).foldl
        (resolveField ((pages.map fun p => cfg.extract p.1 p.2).flatMap
          (fun r => r.matchList.map matchToEvidence)) llm_result.to_dict) []))
      "isbn" = none
    rw [foldl_override_preserve _ _ _ (by decide),
      foldl_resolveField_isbn _ _ _ hbre]
    rfl
  · simp only [List.all_eq_true, bne_iff_ne]
    intro r hr m hm
    rw [List.mem_map] at hr
    obtain ⟨p, _, rfl⟩ := hr
    exact extract_field_ne_isbn cfg p.1 p.2 m hm

/-! ## C8 — a document with no usable text fails cleanly -/

/-- C8.  When no page of the document yields usable (non-blank) text,
`Pipeline.run` returns — without raising — a fresh record with status
`failed`, type `unknown`, and no bibliographic field populated (all the
other fields keep their defaults). -/
theorem pipeline_no_text_failed (doc : PipelineDoc) (env : AgentEnv)
    (llm : String → LLMExtractionResult)
    (webEnrich : BibliographyRecord → BibliographyRecord)
    (record_id source_file : String)
    (h : ∀ p ∈ doc.page_indices, usableText (doc.pageText p) = false) :
    Pipeline.run doc env llm webEnrich record_id source_file =
      { id := record_id, status := .failed, type := "unknown" } := by
  unfold Pipeline.run
  have hdata : doc.page_indices.filterMap (fun p =>
      match doc.pageText p with
      | some s => if ¬ s.data.all isSpaceChar then some (p, s) else none
      | none => none) = [] := by
    rw [List.filterMap_eq_nil_iff]
    intro p hp
    have hu := h p hp
    unfold usableText at hu
    cases hpt : doc.pageText p with
    | none => rfl
    | some s =>
      rw [hpt] at hu
      simp only [decide_eq_false_iff_not, Decidable.not_not] at hu
      simp [hu]
  rw [hdata]
  rfl

/-- Witness for C8: a three-page document where page 1 raises during
extraction and pages 2 and 3 are blank. -/
theorem pipeline_no_text_failed_witness :
    Pipeline.run blankDoc trivialEnv (fun _ => {}) (fun r => r) "id8" "f.pdf" =
      { id := "id8", status := .failed, type := "unknown" } :=
  pipeline_no_text_failed blankDoc trivialEnv (fun _ => {}) (fun r => r)
    "id8" "f.pdf" (by decide)

/-! ## C1 — which scorer sets the final status -/

/-- C1 (counterexample).  On a record holding only a title and one
author, `ExpansionAgent.run` leaves status `needs_review` — its final
`determine_status` call computes the fixed-weight score 2/3·0.6 = 0.4,
at the 0.4 threshold — while the category-weighted `ConfidenceScorer`
(weights 0.50/0.25/0.15/0.10, thresholds 0.75/0.40), applied to the
same fields under its own key names, scores 0.7·0.5 = 0.35 and grades
`failed`.  The loop runs no action that changes the record (the
document is not a PDF), so the two statuses compare the two scorers on
the same record: the final status is set by the simple calculation, not
by the category-weighted scorer. -/
theorem final_status_scorer_counterexample :
    (titleAuthorAgent.run trivialEnv).1.record.status = RecordStatus.needs_review ∧
    (titleAuthorAgent.run trivialEnv).1.record.confidence = mkRat 2 5 ∧
    (ConfidenceScorer.score {} titleAuthorDict).status = RecordStatus.failed ∧
    (ConfidenceScorer.score {} titleAuthorDict).overall_score = mkRat 7 20 ∧
    RecordStatus.needs_review ≠ RecordStatus.failed := by
  decide

/-- C1 (amended).  For every run of the expansion agent, the final
status and confidence of the returned record are produced by
`BibliographyRecord.determine_status` on the post-loop record: the
fixed-weight calculation `required/3 · 0.6 + structure/4 · 0.25 +
publication/2 · 0.15` rounded to two decimals, graded confirmed at ≥ 0.8
and needs_review at ≥ 0.4 — not by the category-weighted scorer. -/
theorem run_final_status_fixed_weight (env : AgentEnv) (a : ExpansionAgent) :
    (a.run env).1.record.confidence =
      roundTo2 (qadd (qadd
        (qmul (qdiv (mkRat (requiredPresent
          (run_loop env (a.max_iterations - a.iteration) a).1.record) 1)
          (mkRat 3 1)) (mkRat 3 5))
        (qmul (qdiv (mkRat (structurePresent
          (run_loop env (a.max_iterations - a.iteration) a).1.record) 1)
          (mkRat 4 1)) (mkRat 1 4)))
        (qmul (qdiv (mkRat (publicationPresent
          (run_loop env (a.max_iterations - a.iteration) a).1.record) 1)
          (mkRat 2 1)) (mkRat 3 20))) ∧
    (a.run env).1.record.status =
      (if mkRat 4 5 ≤ (a.run env).1.record.confidence then RecordStatus.confirmed
       else if mkRat 2 5 ≤ (a.run env).1.record.confidence then
         RecordStatus.needs_review
       else RecordStatus.failed) :=
  ⟨rfl, rfl⟩

/-! ## Agent state lemmas -/

theorem action_find_running_headers_state (env : AgentEnv) (a : ExpansionAgent) :
    (action_find_running_headers env a).1.iteration = a.iteration ∧
    (action_find_running_headers env a).1.max_iterations = a.max_iterations ∧
    (action_find_running_headers env a).1.tried_running_headers = true ∧
    (action_find_running_headers env a).1.tried_last_pages = a.tried_last_pages := by
  unfold action_find_running_headers
  dsimp only []
  repeat' split
  all_goals exact ⟨rfl, rfl, rfl, rfl⟩

theorem action_find_publication_info_state (env : AgentEnv) (a : ExpansionAgent) :
    (action_find_publication_info env a).1.iteration = a.iteration ∧
    (action_find_publication_info env a).1.max_iterations = a.max_iterations ∧
    (action_find_publication_info env a).1.tried_last_pages = true ∧
    (action_find_publication_info env a).1.tried_running_headers =
      a.tried_running_headers := by
  unfold action_find_publication_info
  dsimp only []
  repeat' split
  all_goals exact ⟨rfl, rfl, rfl, rfl⟩

/-- Case analysis of `_choose_and_execute_action`: the loop counter and
bound are untouched; whichever action body runs was untried before and
is marked tried after, the other flag being preserved; and when no
action is eligible the agent is returned unchanged. -/
theorem choose_and_execute_cases (env : AgentEnv) (a : ExpansionAgent) :
    (choose_and_execute_action env a).1.iteration = a.iteration ∧
    (choose_and_execute_action env a).1.max_iterations = a.max_iterations ∧
    (((choose_and_execute_action env a).2.2 = some .running_headers ∧
        a.tried_running_headers = false ∧
        (choose_and_execute_action env a).1.tried_running_headers = true ∧
        (choose_and_execute_action env a).1.tried_last_pages = a.tried_last_pages) ∨
     ((choose_and_execute_action env a).2.2 = some .last_pages ∧
        a.tried_last_pages = false ∧
        (choose_and_execute_action env a).1.tried_last_pages = true ∧
        (choose_and_execute_action env a).1.tried_running_headers =
          a.tried_running_headers) ∨
     ((choose_and_execute_action env a).2.2 = none ∧
        (choose_and_execute_action env a).1 = a)) := by
  unfold choose_and_execute_action
  split_ifs with h1 h2
  · obtain ⟨hi, hm, hf, hl⟩ := action_find_running_headers_state env a
    exact ⟨hi, hm, Or.inl ⟨rfl, by simpa using h1.2.2, hf, hl⟩⟩
  · obtain ⟨hi, hm, hf, hl⟩ := action_find_publication_info_state env a
    exact ⟨hi, hm, Or.inr (Or.inl ⟨rfl, by simpa using h2.2, hf, hl⟩)⟩
  · exact ⟨rfl, rfl, Or.inr (Or.inr ⟨rfl, rfl⟩)⟩

theorem run_loop_max_iterations (env : AgentEnv) (fuel : Nat) (a : ExpansionAgent) :
    (run_loop env fuel a).1.max_iterations = a.max_iterations := by
  induction fuel generalizing a with
  | zero => rfl
  | succ fuel ih =>
    show (run_loop env (fuel + 1) a).1.max_iterations = a.max_iterations
    simp only [run_loop]
    split
    · rfl
    · split
      · rw [ih]
        exact (choose_and_execute_cases env _).2.1
      · exact (choose_and_execute_cases env _).2.1

theorem run_loop_iteration_on_max (env : AgentEnv) (fuel : Nat) (a : ExpansionAgent)
    (h : (run_loop env fuel a).2.2 = .max_iterations) :
    (run_loop env fuel a).1.iteration = a.iteration + fuel := by
  induction fuel generalizing a with
  | zero => rfl
  | succ fuel ih =>
    simp only [run_loop] at h ⊢
    by_cases hc : is_complete ({ a with iteration := a.iteration + 1 }).record = true
    · rw [if_pos hc] at h
      simp at h
    · rw [if_neg hc] at h ⊢
      by_cases ht : (choose_and_execute_action env
          { a with iteration := a.iteration + 1 }).2.1 = true
      · rw [if_pos ht] at h ⊢
        have h2 : (run_loop env fuel (choose_and_execute_action env
            { a with iteration := a.iteration + 1 }).1).2.2 =
            ExitKind.max_iterations := h
        show (run_loop env fuel (choose_and_execute_action env
          { a with iteration := a.iteration + 1 }).1).1.iteration =
          a.iteration + (fuel + 1)
        rw [ih _ h2, (choose_and_execute_cases env _).1]
        show a.iteration + 1 + fuel = a.iteration + (fuel + 1)
        omega
      · rw [if_neg ht] at h
        have h2 : ExitKind.no_change (choose_and_execute_action env
            { a with iteration := a.iteration + 1 }).2.2 =
            ExitKind.max_iterations := h
        cases h2

/-- Exit characterization of the agent loop: it stops at the iteration
bound, on a complete record, or when `_choose_and_execute_action`
returned `False` — either because no action was eligible (the agent is
then a fixed point of the chooser) or because an action body ran without
changing the record, in which case that action's tried flag is set. -/
theorem run_loop_exit (env : AgentEnv) (fuel : Nat) (a : ExpansionAgent) :
    (run_loop env fuel a).2.2 = .max_iterations ∨
    ((run_loop env fuel a).2.2 = .complete ∧
      is_complete (run_loop env fuel a).1.record = true) ∨
    ((run_loop env fuel a).2.2 = .no_change none) ∨
    ((run_loop env fuel a).2.2 = .no_change (some .running_headers) ∧
      (run_loop env fuel a).1.tried_running_headers = true) ∨
    ((run_loop env fuel a).2.2 = .no_change (some .last_pages) ∧
      (run_loop env fuel a).1.tried_last_pages = true) := by
  induction fuel generalizing a with
  | zero => exact Or.inl rfl
  | succ fuel ih =>
    simp only [run_loop]
    split
    · rename_i hcomp
      exact Or.inr (Or.inl ⟨rfl, hcomp⟩)
    · split
      · exact ih _
      · rename_i hnt
        rcases (choose_and_execute_cases env
            { a with iteration := a.iteration + 1 }).2.2 with
          ⟨htag, _, hflag, _⟩ | ⟨htag, _, hflag, _⟩ | ⟨htag, _⟩
        · exact Or.inr (Or.inr (Or.inr (Or.inl ⟨by rw [htag], hflag⟩)))
        · exact Or.inr (Or.inr (Or.inr (Or.inr ⟨by rw [htag], hflag⟩)))
        · exact Or.inr (Or.inr (Or.inl (by rw [htag])))

theorem is_complete_determine_status (r : BibliographyRecord) :
    is_complete r.determine_status = is_complete r := rfl

/-! ## C3 — when the agent loop stops -/

/-- C3 (counterexample).  With a 10-page PDF whose header OCR returns
text without any pattern match, the agent on an article record missing
`page` and `volume` runs the running-headers action, which changes
nothing, and the loop then stops — although the iteration bound is not
reached, the record is incomplete, and the publication-info action is
still eligible (publisher missing, its tried flag unset).  The loop does
not advance to the next iteration as the claim states. -/
theorem loop_exit_counterexample :
    (incompleteArticleAgent.run headerNoMatchEnv).2.2 =
      ExitKind.no_change (some .running_headers) ∧
    (incompleteArticleAgent.run headerNoMatchEnv).1.iteration = 1 ∧
    (incompleteArticleAgent.run headerNoMatchEnv).1.max_iterations = 2 ∧
    is_complete (incompleteArticleAgent.run headerNoMatchEnv).1.record = false ∧
    (incompleteArticleAgent.run headerNoMatchEnv).1.tried_last_pages = false ∧
    optStrTruthy
      (incompleteArticleAgent.run headerNoMatchEnv).1.record.publisher = false := by
  decide

/-- C3 (amended).  The loop of `ExpansionAgent.run` stops exactly when
(a) the record is judged complete, (b) the iteration counter reaches
`max_iterations`, (c) no eligible action remains (the chooser returns
`False` without running an action body), or (d) the selected action
executes but makes no change — in which case the loop stops at once with
that action's tried flag set, rather than advancing while other eligible
actions remain. -/
theorem loop_exit_conditions (env : AgentEnv) (a : ExpansionAgent) :
    ((a.run env).2.2 = ExitKind.max_iterations ∧
      (a.run env).1.max_iterations ≤ (a.run env).1.iteration) ∨
    ((a.run env).2.2 = ExitKind.complete ∧
      is_complete (a.run env).1.record = true) ∨
    ((a.run env).2.2 = ExitKind.no_change none) ∨
    ((a.run env).2.2 = ExitKind.no_change (some .running_headers) ∧
      (a.run env).1.tried_running_headers = true) ∨
    ((a.run env).2.2 = ExitKind.no_change (some .last_pages) ∧
      (a.run env).1.tried_last_pages = true) := by
  rcases run_loop_exit env (a.max_iterations - a.iteration) a with
    h | ⟨h, hc⟩ | h | ⟨h, hf⟩ | ⟨h, hf⟩
  · refine Or.inl ⟨h, ?_⟩
    have hiter := run_loop_iteration_on_max env (a.max_iterations - a.iteration) a h
    have hmax := run_loop_max_iterations env (a.max_iterations - a.iteration) a
    show (run_loop env (a.max_iterations - a.iteration) a).1.max_iterations ≤
      (run_loop env (a.max_iterations - a.iteration) a).1.iteration
    rw [hiter, hmax]
    omega
  · refine Or.inr (Or.inl ⟨h, ?_⟩)
    show is_complete
      ((run_loop env (a.max_iterations - a.iteration) a).1.record.determine_status) = true
    rw [is_complete_determine_status]
    exact hc
  · exact Or.inr (Or.inr (Or.inl h))
  · exact Or.inr (Or.inr (Or.inr (Or.inl ⟨h, hf⟩)))
  · exact Or.inr (Or.inr (Or.inr (Or.inr ⟨h, hf⟩)))

/-! ## C7 — each action runs at most once -/

theorem countTag_append (tg : ActionTag) (l1 l2 : List ActionTag) :
    countTag tg (l1 ++ l2) = countTag tg l1 + countTag tg l2 := by
  unfold countTag
  rw [List.filter_append, List.length_append]

theorem run_loop_countTag (env : AgentEnv) (tg : ActionTag) (fuel : Nat)
    (a : ExpansionAgent) :
    countTag tg (run_loop env fuel a).2.1 + potTag tg (run_loop env fuel a).1 ≤
      potTag tg a := by
  induction fuel generalizing a with
  | zero =>
    show countTag tg [] + potTag tg a ≤ potTag tg a
    simp [countTag]
  | succ fuel ih =>
    simp only [run_loop]
    have hpa1 : potTag tg ({ a with iteration := a.iteration + 1 }) = potTag tg a := by
      cases tg <;> rfl
    by_cases hc : is_complete ({ a with iteration := a.iteration + 1 }).record = true
    · rw [if_pos hc]
      show countTag tg [] + potTag tg ({ a with iteration := a.iteration + 1 }) ≤
        potTag tg a
      rw [hpa1]
      simp [countTag]
    · rw [if_neg hc]
      have hstep : countTag tg
          (match (choose_and_execute_action env
              { a with iteration := a.iteration + 1 }).2.2 with
           | some tg' => [tg']
           | none => []) +
          potTag tg (choose_and_execute_action env
            { a with iteration := a.iteration + 1 }).1 ≤
          potTag tg ({ a with iteration := a.iteration + 1 }) := by
        rcases (choose_and_execute_cases env
            { a with iteration := a.iteration + 1 }).2.2 with
          ⟨htag, hpre, hpost, hoth⟩ | ⟨htag, hpre, hpost, hoth⟩ | ⟨htag, heq⟩
        · rw [htag]
          cases tg
          · show countTag .running_headers [.running_headers] + _ ≤ _
            have h1 : countTag ActionTag.running_headers [ActionTag.running_headers] = 1 := rfl
            rw [h1]
            simp only [potTag]
            rw [hpost, hpre]
            simp
          · show countTag .last_pages [.running_headers] + _ ≤ _
            have h1 : countTag ActionTag.last_pages [ActionTag.running_headers] = 0 := rfl
            rw [h1]
            simp only [potTag]
            rw [hoth]
            simp
        · rw [htag]
          cases tg
          · show countTag .running_headers [.last_pages] + _ ≤ _
            have h1 : countTag ActionTag.running_headers [ActionTag.last_pages] = 0 := rfl
            rw [h1]
            simp only [potTag]
            rw [hoth]
            simp
          · show countTag .last_pages [.last_pages] + _ ≤ _
            have h1 : countTag ActionTag.last_pages [ActionTag.last_pages] = 1 := rfl
            rw [h1]
            simp only [potTag]
            rw [hpost, hpre]
            simp
        · rw [htag, heq]
          show countTag tg [] + potTag tg _ ≤ potTag tg _
          simp [countTag]
      by_cases ht : (choose_and_execute_action env
          { a with iteration := a.iteration + 1 }).2.1 = true
      · rw [if_pos ht]
        show countTag tg
            ((match (choose_and_execute_action env
                { a with iteration := a.iteration + 1 }).2.2 with
              | some tg' => [tg']
              | none => []) ++
              (run_loop env fuel (choose_and_execute_action env
                { a with iteration := a.iteration + 1 }).1).2.1) +
            potTag tg (run_loop env fuel (choose_and_execute_action env
              { a with iteration := a.iteration + 1 }).1).1 ≤
            potTag tg a
        rw [countTag_append]
        have hrec := ih (choose_and_execute_action env
          { a with iteration := a.iteration + 1 }).1
        omega
      · rw [if_neg ht]
        show countTag tg
            (match (choose_and_execute_action env
                { a with iteration := a.iteration + 1 }).2.2 with
             | some tg' => [tg']
             | none => []) +
            potTag tg (choose_and_execute_action env
              { a with iteration := a.iteration + 1 }).1 ≤
            potTag tg a
        omega

theorem run_countTag (env : AgentEnv) (tg : ActionTag) (a : ExpansionAgent) :
    countTag tg (a.run env).2.1 + potTag tg (a.run env).1 ≤ potTag tg a := by
  have h := run_loop_countTag env tg (a.max_iterations - a.iteration) a
  have hpot : potTag tg (a.run env).1 =
      potTag tg (run_loop env (a.max_iterations - a.iteration) a).1 := by
    cases tg <;> rfl
  have hlog : (a.run env).2.1 =
      (run_loop env (a.max_iterations - a.iteration) a).2.1 := rfl
  rw [hlog, hpot]
  exact h

theorem runSeq_countTag (env : AgentEnv) (tg : ActionTag) (k : Nat)
    (a : ExpansionAgent) :
    countTag tg (runSeq env k a).2 + potTag tg (runSeq env k a).1 ≤ potTag tg a := by
  induction k generalizing a with
  | zero =>
    show countTag tg [] + potTag tg a ≤ potTag tg a
    simp [countTag]
  | succ k ih =>
    show countTag tg ((a.run env).2.1 ++ (runSeq env k (a.run env).1).2) +
      potTag tg (runSeq env k (a.run env).1).1 ≤ potTag tg a
    rw [countTag_append]
    have h1 := run_countTag env tg a
    have h2 := ih (a.run env).1
    omega

/-- C7.  Starting from a fresh agent (both tried flags unset), across
any number of `run()` calls each action body executes at most once; and
a `run()` on a record that already satisfies the completeness predicate
executes no action at all. -/
theorem expansion_actions_at_most_once :
    (∀ (env : AgentEnv) (k : Nat) (a : ExpansionAgent),
      a.tried_running_headers = false → a.tried_last_pages = false →
      countTag .running_headers (runSeq env k a).2 ≤ 1 ∧
      countTag .last_pages (runSeq env k a).2 ≤ 1) ∧
    (∀ (env : AgentEnv) (a : ExpansionAgent),
      is_complete a.record = true → (a.run env).2.1 = []) := by
  constructor
  · intro env k a h1 h2
    constructor
    · have h := runSeq_countTag env .running_headers k a
      have hp : potTag .running_headers a = 1 := by
        simp [potTag, h1]
      omega
    · have h := runSeq_countTag env .last_pages k a
      have hp : potTag .last_pages a = 1 := by
        simp [potTag, h2]
      omega
  · intro env a hcomp
    show (run_loop env (a.max_iterations - a.iteration) a).2.1 = []
    cases hf : a.max_iterations - a.iteration with
    | zero => rfl
    | succ n =>
      have hc : is_complete ({ a with iteration := a.iteration + 1 }).record = true :=
        hcomp
      simp only [run_loop]
      rw [if_pos hc]

/-- Witness for C7: two runs on a fresh incomplete-article agent, and a
run on an already-complete record. -/
theorem expansion_actions_at_most_once_witness :
    (countTag .running_headers
        (runSeq headerNoMatchEnv 2 incompleteArticleAgent).2 ≤ 1 ∧
      countTag .last_pages
        (runSeq headerNoMatchEnv 2 incompleteArticleAgent).2 ≤ 1) ∧
    (completeAgent.run trivialEnv).2.1 = [] :=
  ⟨expansion_actions_at_most_once.1 headerNoMatchEnv 2 incompleteArticleAgent
      rfl rfl,
   expansion_actions_at_most_once.2 trivialEnv completeAgent (by decide)⟩
